import Mathlib

/-!
Shallow embedding of the Module Registry & Metadata Synchronization Engine
of `pact_admin` (file `pact_admin/registry.py`), together with proofs of
the specified properties.

Modelling conventions:

* The setup CSV (`PACT_SNL_Outdoor_Modules_SETUP.csv`) is a list of `Row`
  values whose fields are the CSV columns, all strings, with the empty
  string standing for a missing cell (exactly as `pd.read_csv(dtype=str,
  keep_default_na=False)` yields them).
* The censored-days CSV is a list of `CensorRow` values, in file order
  (append order).
* The JSON files on disk are modelled as association lists keyed by the
  pair (batch, outdoor_directory), which are precisely the path components
  of `get_module_metadata_path` / `get_site_metadata_path` that vary:
  `base / (batch ++ "-XX") / outdoor_directory / data / metadata / ...`.
  A real filesystem has at most one file per path, so states of interest
  have no duplicate keys (`FsOk`).
* Date parsing (`pd.Timestamp` / `pd.to_datetime`) and Python `float` are
  abstracted by an arbitrary environment `PyOps`: `ts` maps a parseable
  date string to its timeline position (an integer), `mdy`/`iso` are the
  two date re-formatters `_format_date_mdy` / `_format_date_iso`, and
  `floatVal` maps the string form of a number to its float value.  The
  code only ever compares timestamps with `≤`, so an integer timeline is
  faithful; `pd.Timestamp.min` / `pd.Timestamp.max` (used for absent
  module start / end dates) bound every parseable timestamp, so the
  comparisons they appear in are modelled as the constants they evaluate
  to (`True`), with the empty-string test done structurally.
* Python exceptions are modelled by returning the state reached at the
  raise point together with `some err`; every mutation performed before
  the raise is kept, mutations after it are not (faithful to the code,
  which has no rollback).
* `list.sort()` on ISO date strings is Python's stable sort under
  lexicographic string order; since `String` is linearly ordered, the
  sorted permutation of a list of strings is unique as a list, so any
  correct sort models it; we use `List.insertionSort`.
-/

namespace PactSnl

/-- Entry of a `days_censored` or `days_indoors` JSON list: a dict
`{start, end, comment}` of strings. -/
structure Censor where
  start : String
  end_ : String
  comment : String
deriving DecidableEq, Repr

/-- One row of the setup CSV (`read_modules`): all columns as strings,
missing cells as empty strings. -/
structure Row where
  Start_date : String
  End_date : String
  PACT_id : String
  PSEL_id : String
  Area : String
  Active : String
  Type' : String
  Site : String
  Notes : String
deriving DecidableEq, Repr

/-- One row of the censored-days CSV: columns pact_id, start, end, comment. -/
structure CensorRow where
  pact_id : String
  start : String
  end_ : String
  comment : String
deriving DecidableEq, Repr

/-- One entry of a `module-metadata.json` array. `module_area` is the
Python float value, abstracted as an integer code (see `PyOps`). -/
structure ModuleMeta where
  module_id : String
  module_area : Int
  module_type : String
  days_indoors : List Censor
  days_censored : List Censor
deriving DecidableEq, Repr

/-- Static per-site configuration from `pact_config.json` (`sites` dict).
`surface_tilt`/`surface_azimuth` are `none` for the JSON null of a
tracked mount. Numeric fields are abstract integer codes. -/
structure SiteCfg where
  outdoor_directory : String
  label : String
  latitude : Int
  longitude : Int
  elevation : Int
  surface_tilt : Option Int
  surface_azimuth : Option Int
deriving DecidableEq, Repr

/-- A `site-metadata.json` document: location block plus the snow-day list.
The `'null'` marker written for a tracked mount is modelled by `none`. -/
structure SiteDoc where
  label : String
  latitude : Int
  longitude : Int
  elevation : Int
  surface_tilt : Option Int
  surface_azimuth : Option Int
  snow_days : List String
deriving DecidableEq, Repr

/-- The loaded configuration: the `sites` dict as an association list in
JSON order. -/
structure Cfg where
  sites : List (String × SiteCfg)
deriving DecidableEq, Repr

/-- Abstracted Python primitives (see the module docstring):
`ts` = `pd.Timestamp` on a parseable date string, `mdy` =
`_format_date_mdy`, `iso` = `_format_date_iso`, `floatVal` = `float`. -/
structure PyOps where
  ts : String → Int
  mdy : String → String
  iso : String → String
  floatVal : String → Int

/-- The durable state: the two CSVs and the JSON documents on disk, the
latter keyed by (batch, outdoor_directory). -/
structure St where
  modulesCsv : List Row
  censoredCsv : List CensorRow
  moduleMeta : List ((String × String) × List ModuleMeta)
  siteMeta : List ((String × String) × SiteDoc)
deriving DecidableEq, Repr

/-- Errors raised by the registry operations (`KeyError` from
`get_site_cfg`, and the three `ValueError` raise sites). -/
inductive Err where
  | configError (site : String)
  | duplicateId (pid : String)
  | notFound (pid : String)
  | notFoundActive (pid : String)
deriving DecidableEq, Repr

/-- Lookup in an association list (a Python dict read, or a file read at
a path). -/
def dictGet? {κ α : Type} [DecidableEq κ] (d : List (κ × α)) (k : κ) : Option α :=
  (d.find? fun p => decide (p.1 = k)).map (·.2)

/-- Python dict assignment `d[k] = v` (also: writing a file at path `k`):
replaces the binding in place if the key is present, else appends. -/
def dictInsert {κ α : Type} [DecidableEq κ] (d : List (κ × α)) (k : κ) (v : α) :
    List (κ × α) :=
  if d.any (fun p => decide (p.1 = k)) then
    d.map (fun p => if p.1 = k then (k, v) else p)
  else d ++ [(k, v)]

/-- `row.get('Site', 'SNL') or 'SNL'`: empty cell falls back to `'SNL'`. -/
def siteOf (r : Row) : String := if r.Site = "" then "SNL" else r.Site

/-- `get_site_cfg`: `cfg['sites'][site_key]`, `none` for the `KeyError`. -/
def getSiteCfg? (cfg : Cfg) (k : String) : Option SiteCfg := dictGet? cfg.sites k

/-- Batch (group) key of a module id: `pact_id[:6]`, i.e. the first six
characters (written on the character list, which is what Python slicing
does). -/
def batchOf (pid : String) : String := String.mk (pid.data.take 6)

/-- Document freshly written by `_ensure_site_metadata`: site facts from
the static configuration and an empty snow-day list. -/
def mkSiteDoc (sc : SiteCfg) : SiteDoc :=
  { label := sc.label, latitude := sc.latitude, longitude := sc.longitude,
    elevation := sc.elevation, surface_tilt := sc.surface_tilt,
    surface_azimuth := sc.surface_azimuth, snow_days := [] }

/-- `_ensure_site_metadata`: create `site-metadata.json` for the batch if
absent; an existing document is returned untouched. The caller has
already resolved the site configuration `sc`. -/
def ensureSiteMetadata (sc : SiteCfg) (key : String × String) (s : St) : St :=
  if (dictGet? s.siteMeta key).isSome then s
  else { s with siteMeta := s.siteMeta ++ [(key, mkSiteDoc sc)] }

/-- Inner loop of `_add_censor_to_metadata`: walk the document array and
patch the FIRST record whose `module_id` matches, appending the censor
unless the identical (start, end, comment) triple is already present. -/
def attachFirst (pid : String) (c : Censor) : List ModuleMeta → List ModuleMeta
  | [] => []
  | m :: rest =>
    if m.module_id = pid then
      (if c ∈ m.days_censored then m
       else { m with days_censored := m.days_censored ++ [c] }) :: rest
    else m :: attachFirst pid c rest

/-- `_add_censor_to_metadata`: no-op when the document is missing (the
"skipping" branches); otherwise patch the first matching record. -/
def addCensorToMetadata (pid : String) (c : Censor) (key : String × String)
    (s : St) : St :=
  match dictGet? s.moduleMeta key with
  | none => s
  | some data =>
    { s with moduleMeta := dictInsert s.moduleMeta key (attachFirst pid c data) }

/-- `_add_module_to_metadata_json`: append a fresh record unless the id is
already present; reads `[]` when the file does not exist yet. -/
def addModuleToMetadataJson (py : PyOps) (pid area mtype : String)
    (key : String × String) (s : St) : St :=
  if ((dictGet? s.moduleMeta key).getD []).any (fun m => decide (m.module_id = pid)) then
    s
  else
    { s with moduleMeta := dictInsert s.moduleMeta key (((dictGet? s.moduleMeta key).getD []) ++ [{ module_id := pid, module_area := py.floatVal area, module_type := mtype, days_indoors := [], days_censored := [] }]) }

/-- Roster row written by `add_module`. -/
def newRow (py : PyOps) (pid psel area mtype start_date site notes : String) : Row :=
  { Start_date := py.mdy start_date, End_date := "", PACT_id := pid,
    PSEL_id := psel, Area := area, Active := "Y", Type' := mtype,
    Site := site, Notes := notes }

/-- `add_module`: validate the site key, reject a duplicate id, then append
the roster row, create the metadata record and the site document.
(`create_directory_tree` only makes directories and is not part of the
modelled state.) -/
def add_module (py : PyOps) (cfg : Cfg)
    (pid psel area mtype start_date site notes : String) (s : St) :
    St × Option Err :=
  match getSiteCfg? cfg site with
  | none => (s, some (.configError site))
  | some sc =>
    if s.modulesCsv.any (fun r => decide (r.PACT_id = pid)) then
      (s, some (.duplicateId pid))
    else
      (ensureSiteMetadata sc (batchOf pid, sc.outdoor_directory)
        (addModuleToMetadataJson py pid area mtype (batchOf pid, sc.outdoor_directory)
          { s with modulesCsv :=
              s.modulesCsv ++ [newRow py pid psel area mtype start_date site notes] }),
       none)

/-- Mask used by `retire_module`: `(df['PACT_id'] == pact_id) & (df['Active'] == 'Y')`. -/
def retireMask (pid : String) (r : Row) : Bool :=
  decide (r.PACT_id = pid) && decide (r.Active = "Y")

/-- `retire_module`: set `Active='N'` and the formatted end date on every
masked row; error (before any write) when no active row matches. -/
def retire_module (py : PyOps) (pid end_date : String) (s : St) :
    St × Option Err :=
  if s.modulesCsv.any (retireMask pid) then
    ({ s with modulesCsv := s.modulesCsv.map fun r =>
        if retireMask pid r then
          { r with Active := "N", End_date := py.mdy end_date }
        else r }, none)
  else (s, some (.notFoundActive pid))

/-- Site-wide selection test of `add_censor`: a row whose `Start_date`
cell is empty is skipped (`m_start is None: continue`); an empty
`End_date` is `pd.Timestamp.max`, which is `≥` any censor start. -/
def censorSelectsImmediate (py : PyOps) (r : Row) (cs ce : String) : Bool :=
  !(decide (r.Start_date = "")) && decide (py.ts r.Start_date ≤ py.ts ce) &&
    (decide (r.End_date = "") || decide (py.ts cs ≤ py.ts r.End_date))

/-- `add_censor`: append to the censored-days CSV first, then patch the
metadata document(s): every overlapping module for the `'site'` sentinel,
else the single module found for `pact_id` (its site looked up via
`_lookup_site_key`, which raises when the id is absent). -/
def add_censor (py : PyOps) (cfg : Cfg) (pid start end_ comment : String)
    (s : St) : St × Option Err :=
  let s1 := { s with censoredCsv := s.censoredCsv ++ [⟨pid, start, end_, comment⟩] }
  let c : Censor := ⟨start, end_, comment⟩
  if pid = "site" then
    s1.modulesCsv.foldl (fun acc r =>
      match acc.2 with
      | some e => (acc.1, some e)
      | none =>
        if censorSelectsImmediate py r start end_ then
          match getSiteCfg? cfg (siteOf r) with
          | none => (acc.1, some (.configError (siteOf r)))
          | some sc =>
            (addCensorToMetadata r.PACT_id c
              (batchOf r.PACT_id, sc.outdoor_directory) acc.1, none)
        else acc) (s1, none)
  else
    match s1.modulesCsv.find? (fun r => decide (r.PACT_id = pid)) with
    | none => (s1, some (.notFound pid))
    | some r =>
      match getSiteCfg? cfg (siteOf r) with
      | none => (s1, some (.configError (siteOf r)))
      | some sc =>
        (addCensorToMetadata pid c (batchOf pid, sc.outdoor_directory) s1, none)

/-- Body of the site-wide loop of `add_censor` (named for the loop
lemmas; identical to the lambda in `add_censor`): skip rows the selection
test rejects, abort on an unconfigured site, else patch that row's
document record. -/
def censorStep (py : PyOps) (cfg : Cfg) (c : Censor) (cs ce : String)
    (acc : St × Option Err) (r : Row) : St × Option Err :=
  match acc.2 with
  | some e => (acc.1, some e)
  | none =>
    if censorSelectsImmediate py r cs ce then
      match getSiteCfg? cfg (siteOf r) with
      | none => (acc.1, some (.configError (siteOf r)))
      | some sc =>
        (addCensorToMetadata r.PACT_id c
          (batchOf r.PACT_id, sc.outdoor_directory) acc.1, none)
    else acc

/-- Directory-name filter of `add_snow_day`: the glob `P-????-XX` over the
batch directories `batch ++ "-XX"` matches exactly the six-character
batches that start with `"P-"`. -/
def globMatch (b : String) : Bool :=
  decide (b.length = 6) && decide (String.mk (b.data.take 2) = "P-")

/-- `add_snow_day`: for every existing `site-metadata.json` reached by the
glob (batch dir matching `P-????-XX` under a configured outdoor
directory), insert the ISO date into `snow_days` if absent and re-sort. -/
def add_snow_day (py : PyOps) (cfg : Cfg) (date : String) (s : St) :
    St × Option Err :=
  let dIso := py.iso date
  let dirs := cfg.sites.map (fun p => p.2.outdoor_directory)
  ({ s with siteMeta := s.siteMeta.map fun p =>
      (p.1,
        if globMatch p.1.1 && dirs.contains p.1.2 then
          if dIso ∈ p.2.snow_days then p.2
          else { p.2 with snow_days :=
                  (p.2.snow_days ++ [dIso]).insertionSort (· ≤ ·) }
        else p.2) }, none)

/-- Site-wide selection test of `sync_metadata`, on a `(Start_date,
End_date)` pair from `module_dates`: empty cells became
`pd.Timestamp.min` / `pd.Timestamp.max`, which satisfy their respective
comparisons against any parseable censor bound. -/
def censorSelectsSync (py : PyOps) (dates : String × String) (cs ce : String) :
    Bool :=
  (decide (dates.1 = "") || decide (py.ts dates.1 ≤ py.ts ce)) &&
    (decide (dates.2 = "") || decide (py.ts cs ≤ py.ts dates.2))

/-- Append a censor through `mod_by_id[mid]`, which aliases the LAST
element of the rebuilt module list bearing that id; the identical-triple
check suppresses duplicates. No-op when the id is absent. -/
def addCensorLast (mid : String) (c : Censor) : List ModuleMeta → List ModuleMeta
  | [] => []
  | m :: rest =>
    if rest.any (fun x => decide (x.module_id = mid)) then
      m :: addCensorLast mid c rest
    else if m.module_id = mid then
      (if c ∈ m.days_censored then m
       else { m with days_censored := m.days_censored ++ [c] }) :: rest
    else m :: addCensorLast mid c rest

/-- Grouping of the roster by batch key (`batches.setdefault(...).append`):
the association list is in first-occurrence order and each batch carries
its rows in roster order. -/
def batchesOf (rows : List Row) : List (String × List Row) :=
  rows.foldl (fun d r =>
    let b := batchOf r.PACT_id
    if d.any (fun p => decide (p.1 = b)) then
      d.map (fun p => (p.1, if p.1 = b then p.2 ++ [r] else p.2))
    else d ++ [(b, [r])]) []

/-- `module_dates`: Python dict from module id to its (start, end) cells;
a repeated id keeps its first position but the last row's value. -/
def moduleDates (rows : List Row) : List (String × (String × String)) :=
  rows.foldl (fun d r => dictInsert d r.PACT_id (r.Start_date, r.End_date)) []

/-- `existing_indoors`: dict from module id to its current `days_indoors`
list, read from the old document. -/
def indoorsDict (doc : List ModuleMeta) : List (String × List Censor) :=
  doc.foldl (fun d m => dictInsert d m.module_id m.days_indoors) []

/-- Rebuild of the module-record list from the roster rows of one batch
(step before the censor scan): classification and area from the CSV,
indoor periods carried over from `existing_indoors`, censor list empty. -/
def buildModules (py : PyOps) (ind : List (String × List Censor))
    (rows : List Row) : List ModuleMeta :=
  rows.map fun r =>
    { module_id := r.PACT_id, module_area := py.floatVal r.Area,
      module_type := r.Type', days_indoors := (dictGet? ind r.PACT_id).getD [],
      days_censored := [] }

/-- Processing of one censored-days CSV row during `sync_metadata`:
module-scoped rows attach to that module when present; the `'site'`
sentinel walks `module_dates` and attaches to every overlapping module. -/
def applyCensorRow (py : PyOps) (dates : List (String × (String × String)))
    (mods : List ModuleMeta) (crow : CensorRow) : List ModuleMeta :=
  let c : Censor := ⟨crow.start, crow.end_, crow.comment⟩
  if crow.pact_id ≠ "site" then
    if mods.any (fun m => decide (m.module_id = crow.pact_id)) then
      addCensorLast crow.pact_id c mods
    else mods
  else
    dates.foldl (fun ms p =>
      if censorSelectsSync py p.2 crow.start crow.end_ then
        addCensorLast p.1 c ms
      else ms) mods

/-- The document `sync_metadata` writes for one batch: the rebuilt module
list after the full scan of the censored-days CSV. -/
def syncBatchDoc (py : PyOps) (cens : List CensorRow)
    (ind : List (String × List Censor)) (rows : List Row) : List ModuleMeta :=
  cens.foldl (applyCensorRow py (moduleDates rows)) (buildModules py ind rows)

/-- Site key a batch is synced under: taken from its first row
(`rows[0].get('Site', 'SNL') or 'SNL'`); batches are never empty. -/
def batchSite (rows : List Row) : String :=
  match rows with
  | [] => "SNL"
  | r :: _ => siteOf r

/-- Body of the per-batch loop of `sync_metadata`: resolve the site (a
`KeyError` aborts the remaining batches but keeps documents already
written), read the old document's indoor lists, rebuild, write, and
ensure the site document. -/
def syncStep (py : PyOps) (cfg : Cfg) (cens : List CensorRow)
    (acc : St × Option Err) (p : String × List Row) : St × Option Err :=
  match acc.2 with
  | some e => (acc.1, some e)
  | none =>
    match getSiteCfg? cfg (batchSite p.2) with
    | none => (acc.1, some (.configError (batchSite p.2)))
    | some sc =>
      let key := (p.1, sc.outdoor_directory)
      let ind := indoorsDict ((dictGet? acc.1.moduleMeta key).getD [])
      let s1 := { acc.1 with
        moduleMeta := dictInsert acc.1.moduleMeta key (syncBatchDoc py cens ind p.2) }
      (ensureSiteMetadata sc key s1, none)

/-- `sync_metadata`: read both CSVs once, then run the per-batch loop over
the roster grouping. -/
def sync_metadata (py : PyOps) (cfg : Cfg) (s : St) : St × Option Err :=
  (batchesOf s.modulesCsv).foldl (syncStep py cfg s.censoredCsv) (s, none)

/-- Mutation-API operations other than `add_indoor` (`mark_indoor`),
together with the synchronizer; the alphabet of the operation sequences
in the indoor-preservation property. -/
inductive Op where
  | register (pid psel area mtype start_date site notes : String)
  | retire (pid end_date : String)
  | exclude (pid start end_ comment : String)
  | snowday (date : String)
  | resync
deriving DecidableEq, Repr

/-- State reached by one operation (errors keep the state written so far,
as the Python does). -/
def runOp (py : PyOps) (cfg : Cfg) (s : St) : Op → St
  | .register pid psel area mtype sd site notes =>
      (add_module py cfg pid psel area mtype sd site notes s).1
  | .retire pid ed => (retire_module py pid ed s).1
  | .exclude pid st en cm => (add_censor py cfg pid st en cm s).1
  | .snowday d => (add_snow_day py cfg d s).1
  | .resync => (sync_metadata py cfg s).1

/-- State after a sequence of operations. -/
def runOps (py : PyOps) (cfg : Cfg) (ops : List Op) (s : St) : St :=
  ops.foldl (runOp py cfg) s

/-- A state whose document maps are genuine filesystems: one file per
path. -/
def FsOk (s : St) : Prop :=
  (s.moduleMeta.map (·.1)).Nodup ∧ (s.siteMeta.map (·.1)).Nodup

/-- Concrete interpretation of the abstracted Python primitives, used for
witnesses: a date string is evaluated by reading its digits (monotone on
equal-format ISO dates), the re-formatters are the identity. -/
def evalPy : PyOps where
  ts s := Int.ofNat ((s.toList.filter Char.isDigit).foldl
    (fun a c => 10 * a + (c.toNat - 48)) 0)
  mdy := id
  iso := id
  floatVal s := Int.ofNat s.length


/-- Identity/indoor projection of a metadata record: everything the next
sync pass reads back from a written document. -/
def prj (m : ModuleMeta) : String × List Censor := (m.module_id, m.days_indoors)

/-- Step function of the batch grouping
(`batches.setdefault(batch, []).append(row)`). -/
def batchStep (d : List (String × List Row)) (r : Row) : List (String × List Row) :=
  if d.any (fun p => decide (p.1 = batchOf r.PACT_id)) then
    d.map (fun p => (p.1, if p.1 = batchOf r.PACT_id then p.2 ++ [r] else p.2))
  else d ++ [(batchOf r.PACT_id, [r])]

/-- Loop invariant of the batch grouping: keys are distinct, each entry
holds exactly the processed rows of its batch in roster order, and every
processed row's batch key is present. -/
def BatchInv (l : List Row) (d : List (String × List Row)) : Prop :=
  (d.map Prod.fst).Nodup ∧
  (∀ p ∈ d, p.2 = l.filter (fun r => decide (batchOf r.PACT_id = p.1))) ∧
  (∀ r ∈ l, d.any (fun p => decide (p.1 = batchOf r.PACT_id)))

/-- Combined write of one iteration of the `sync_metadata` loop: the new
module-metadata document for the batch, then the site-document creation
check. -/
def syncWrite (py : PyOps) (cens : List CensorRow) (sc : SiteCfg) (s : St)
    (p : String × List Row) : St :=
  let key := (p.1, sc.outdoor_directory)
  let doc := syncBatchDoc py cens
    (indoorsDict ((dictGet? s.moduleMeta key).getD [])) p.2
  ensureSiteMetadata sc key { s with moduleMeta := dictInsert s.moduleMeta key doc }

/-- Censor entry built from a censored-days CSV row. -/
def mkCensor (cr : CensorRow) : Censor := ⟨cr.start, cr.end_, cr.comment⟩

/-- Site configuration used by the concrete examples. -/
def scW : SiteCfg :=
  { outdoor_directory := "Outdoor_SNL", label := "Sandia", latitude := 35,
    longitude := -106, elevation := 1600, surface_tilt := some 35,
    surface_azimuth := some 180 }

/-- Configuration used by the concrete examples: a single site `SNL`. -/
def cfgW : Cfg := { sites := [("SNL", scW)] }

/-- Roster row used by the concrete examples. -/
def rowW : Row :=
  { Start_date := "2023-01-01", End_date := "", PACT_id := "P-0001-01",
    PSEL_id := "1", Area := "1.0", Active := "Y", Type' := "MHP",
    Site := "SNL", Notes := "" }

/-- Concrete starting state: one roster row, one module-scoped exclusion
row, no documents on disk yet. -/
def sW : St :=
  { modulesCsv := [rowW],
    censoredCsv := [⟨"P-0001-01", "2023-02-01", "2023-02-03", "rain"⟩],
    moduleMeta := [], siteMeta := [] }

/-- Concrete state with one existing SiteDocument under a standard
`P-????` batch directory. -/
def sP : St :=
  { modulesCsv := [], censoredCsv := [], moduleMeta := [],
    siteMeta := [(("P-0001", "Outdoor_SNL"), mkSiteDoc scW)] }

/-- Concrete state with one existing SiteDocument under a batch directory
that does NOT match the `P-????-XX` glob. -/
def sX : St :=
  { modulesCsv := [], censoredCsv := [], moduleMeta := [],
    siteMeta := [(("X1-234", "Outdoor_SNL"), mkSiteDoc scW)] }

/-- Roster row with an empty `Start_date` cell (reachable by direct CSV
edits; `add_censor` and `sync_metadata` treat it differently). -/
def rowE : Row :=
  { Start_date := "", End_date := "", PACT_id := "P-0002-01", PSEL_id := "1",
    Area := "1.0", Active := "Y", Type' := "MHP", Site := "SNL", Notes := "" }

/-- Metadata record for `rowE` as `add_module`/`sync` would create it
under `evalPy` (the area string "1.0" has float code 3 = its length). -/
def mmE : ModuleMeta :=
  { module_id := "P-0002-01", module_area := 3, module_type := "MHP",
    days_indoors := [], days_censored := [] }

/-- Concrete state around `rowE`: its document exists and lists it. -/
def sE : St :=
  { modulesCsv := [rowE], censoredCsv := [],
    moduleMeta := [(("P-0002", "Outdoor_SNL"), [mmE])],
    siteMeta := [(("P-0002", "Outdoor_SNL"), mkSiteDoc scW)] }

/-- Metadata record for `rowW` (area string "1.0" has float code 3 under
`evalPy`). -/
def mmW : ModuleMeta :=
  { module_id := "P-0001-01", module_area := 3, module_type := "MHP",
    days_indoors := [], days_censored := [] }

/-- Concrete fully-registered state for the exactly-once example. -/
def sC4 : St :=
  { modulesCsv := [rowW], censoredCsv := [],
    moduleMeta := [(("P-0001", "Outdoor_SNL"), [mmW])],
    siteMeta := [(("P-0001", "Outdoor_SNL"), mkSiteDoc scW)] }

/-- States whose documents are backed by the roster: roster ids are
unique, and every document record's module id has a roster row whose
batch prefix matches the document's batch key, with per-document ids
unique.  Every Mutation API operation and every synchronizer run
preserves this; it is what makes indoor lists survive a resync. -/
def Covered (s : St) : Prop :=
  (s.modulesCsv.map (fun r => r.PACT_id)).Nodup ∧
  ∀ k doc, dictGet? s.moduleMeta k = some doc →
    (doc.map (fun m => m.module_id)).Nodup ∧
    ∀ m ∈ doc, ∃ r ∈ s.modulesCsv,
      r.PACT_id = m.module_id ∧ batchOf r.PACT_id = k.1

/-- Orphan metadata record: no roster row carries its id. -/
def mmO : ModuleMeta :=
  { module_id := "P-0001-99", module_area := 3, module_type := "MHP",
    days_indoors := [⟨"2023-03-01", "2023-03-05", "maintenance"⟩],
    days_censored := [] }

/-- Concrete state whose document holds an orphan record with a manually
recorded indoor period. -/
def sO : St :=
  { modulesCsv := [rowW], censoredCsv := [],
    moduleMeta := [(("P-0001", "Outdoor_SNL"), [mmW, mmO])],
    siteMeta := [(("P-0001", "Outdoor_SNL"), mkSiteDoc scW)] }

/-- Registered module record with a manually recorded indoor period
(`mark_indoor` ran before the sequence under study). -/
def mmI : ModuleMeta :=
  { module_id := "P-0001-01", module_area := 3, module_type := "MHP",
    days_indoors := [⟨"2023-04-01", "2023-04-03", "lab"⟩], days_censored := [] }

/-- Concrete roster-backed state whose document carries a nonempty
indoor-period list. -/
def sI : St :=
  { modulesCsv := [rowW], censoredCsv := [],
    moduleMeta := [(("P-0001", "Outdoor_SNL"), [mmI])],
    siteMeta := [(("P-0001", "Outdoor_SNL"), mkSiteDoc scW)] }

/-! ### Association-list (Python dict / filesystem) lemmas -/

theorem find?_map_replace {κ α : Type} [DecidableEq κ] (d : List (κ × α)) (k : κ) (v : α) :
    (d.map (fun p => if p.1 = k then (k, v) else p)).find? (fun p => decide (p.1 = k))
      = if d.any (fun p => decide (p.1 = k)) then some (k, v) else none := by
  induction d with
  | nil => simp
  | cons p d ih =>
    by_cases hp : p.1 = k
    · simp [hp]
    · have hcons : ((p :: d).any fun q => decide (q.1 = k)) = (d.any fun q => decide (q.1 = k)) := by
        rw [List.any_cons]; simp [hp]
      rw [List.map_cons, if_neg hp, List.find?_cons_of_neg _ (by simpa using hp), ih, hcons]

theorem find?_map_replace_ne {κ α : Type} [DecidableEq κ]
    (d : List (κ × α)) (k k' : κ) (v : α) (h : k' ≠ k) :
    (d.map (fun p => if p.1 = k then (k, v) else p)).find? (fun p => decide (p.1 = k'))
      = d.find? (fun p => decide (p.1 = k')) := by
  induction d with
  | nil => rfl
  | cons p d ih =>
    by_cases hp : p.1 = k
    · have h2 : ¬ p.1 = k' := by rw [hp]; exact fun hh => h hh.symm
      simp only [List.map_cons, if_pos hp]
      rw [List.find?_cons_of_neg _ (by simpa using fun hh : k = k' => h hh.symm),
        List.find?_cons_of_neg _ (by simpa using h2)]
      exact ih
    · by_cases hpk : p.1 = k'
      · simp only [List.map_cons, if_neg hp]
        rw [List.find?_cons_of_pos _ (by simpa using hpk),
          List.find?_cons_of_pos _ (by simpa using hpk)]
      · simp only [List.map_cons, if_neg hp]
        rw [List.find?_cons_of_neg _ (by simpa using hpk),
          List.find?_cons_of_neg _ (by simpa using hpk)]
        exact ih

theorem dictGet?_insert_self {κ α : Type} [DecidableEq κ] (d : List (κ × α)) (k : κ) (v : α) :
    dictGet? (dictInsert d k v) k = some v := by
  unfold dictGet? dictInsert
  by_cases h : d.any (fun p => decide (p.1 = k))
  · rw [if_pos h, find?_map_replace, if_pos h]; rfl
  · rw [if_neg h, List.find?_append]
    have hn : d.find? (fun p => decide (p.1 = k)) = none := by
      rw [List.find?_eq_none]
      intro x hx hxk
      exact h (List.any_eq_true.mpr ⟨x, hx, hxk⟩)
    simp [hn]

theorem dictGet?_insert_ne {κ α : Type} [DecidableEq κ] (d : List (κ × α)) (k k' : κ) (v : α)
    (h : k' ≠ k) : dictGet? (dictInsert d k v) k' = dictGet? d k' := by
  unfold dictGet? dictInsert
  by_cases hd : d.any (fun p => decide (p.1 = k))
  · rw [if_pos hd, find?_map_replace_ne _ _ _ _ h]
  · rw [if_neg hd, List.find?_append]
    have hne : ¬ ((k, v).1 = k') := fun hh => h hh.symm
    have : [(k, v)].find? (fun p => decide (p.1 = k')) = none := by
      rw [List.find?_cons_of_neg _ (by simpa using hne)]; rfl
    simp [this]

theorem map_fst_replace {κ α : Type} [DecidableEq κ] (d : List (κ × α)) (k : κ) (v : α) :
    (d.map (fun p => if p.1 = k then (k, v) else p)).map Prod.fst = d.map Prod.fst := by
  rw [List.map_map]
  apply List.map_congr_left
  intro p _
  by_cases hp : p.1 = k
  · simp [hp]
  · simp [hp]

theorem map_fst_dictInsert {κ α : Type} [DecidableEq κ] (d : List (κ × α)) (k : κ) (v : α) :
    (dictInsert d k v).map Prod.fst
      = if d.any (fun p => decide (p.1 = k)) then d.map Prod.fst
        else d.map Prod.fst ++ [k] := by
  unfold dictInsert
  by_cases h : d.any (fun p => decide (p.1 = k))
  · rw [if_pos h, if_pos h, map_fst_replace]
  · rw [if_neg h, if_neg h, List.map_append]; rfl

theorem nodup_map_fst_dictInsert {κ α : Type} [DecidableEq κ]
    {d : List (κ × α)} (k : κ) (v : α) (h : (d.map Prod.fst).Nodup) :
    ((dictInsert d k v).map Prod.fst).Nodup := by
  rw [map_fst_dictInsert]
  by_cases hd : d.any (fun p => decide (p.1 = k))
  · rwa [if_pos hd]
  · rw [if_neg hd]
    have hk : k ∉ d.map Prod.fst := by
      intro hk
      rcases List.mem_map.mp hk with ⟨p, hp, hpk⟩
      exact hd (List.any_eq_true.mpr ⟨p, hp, by simpa using hpk⟩)
    refine List.Nodup.append h (List.nodup_singleton _) ?_
    intro a ha hb
    rw [List.mem_singleton] at hb
    subst hb
    exact hk ha

theorem dictInsert_eq_self {κ α : Type} [DecidableEq κ]
    {d : List (κ × α)} {k : κ} {v : α}
    (hget : dictGet? d k = some v) (hnd : (d.map Prod.fst).Nodup) :
    dictInsert d k v = d := by
  have hany : d.any (fun p => decide (p.1 = k)) = true := by
    unfold dictGet? at hget
    cases hf : d.find? (fun p => decide (p.1 = k)) with
    | none => rw [hf] at hget; simp at hget
    | some q =>
      have hq1 := List.mem_of_find?_eq_some hf
      have hq2 := List.find?_some hf
      exact List.any_eq_true.mpr ⟨q, hq1, hq2⟩
  unfold dictInsert
  rw [if_pos hany]
  clear hany
  induction d with
  | nil => rfl
  | cons p d ih =>
    unfold dictGet? at hget
    by_cases hp : p.1 = k
    · rw [List.find?_cons_of_pos _ (by simpa using hp)] at hget
      have hv : p.2 = v := by simpa using hget
      have hkrest : ∀ q ∈ d, ¬ (q.1 = k) := by
        intro q hq hqk
        have : p.1 ∈ d.map Prod.fst := by
          rw [hp, ← hqk]; exact List.mem_map.mpr ⟨q, hq, rfl⟩
        exact (List.nodup_cons.mp (by simpa using hnd)).1 this
      simp only [List.map_cons, if_pos hp]
      have hrest : d.map (fun q => if q.1 = k then (k, v) else q) = d := by
        conv_rhs => rw [← List.map_id d]
        apply List.map_congr_left
        intro q hq
        rw [if_neg (hkrest q hq)]
        rfl
      rw [hrest]
      have : p = (k, v) := by
        rcases p with ⟨p1, p2⟩
        simp only at hp hv
        rw [hp, hv]
      rw [← this]
    · rw [List.find?_cons_of_neg _ (by simpa using hp)] at hget
      simp only [List.map_cons, if_neg hp]
      rw [ih hget (by simpa using (List.nodup_cons.mp (by simpa using hnd)).2)]

theorem dictGet?_append_left {κ α : Type} [DecidableEq κ]
    {d : List (κ × α)} (e : List (κ × α)) {k : κ} {v : α}
    (h : dictGet? d k = some v) : dictGet? (d ++ e) k = some v := by
  unfold dictGet? at *
  rw [List.find?_append]
  rcases Option.map_eq_some'.mp h with ⟨p, hp, hpv⟩
  rw [hp]
  simpa using hpv

theorem dictGet?_append_right {κ α : Type} [DecidableEq κ]
    {d : List (κ × α)} (e : List (κ × α)) {k : κ}
    (h : dictGet? d k = none) : dictGet? (d ++ e) k = dictGet? e k := by
  unfold dictGet? at *
  rw [List.find?_append]
  have : d.find? (fun p => decide (p.1 = k)) = none := by
    cases hf : d.find? (fun p => decide (p.1 = k)) with
    | none => rfl
    | some p => rw [hf] at h; simp at h
  simp [this]

theorem dictGet?_map_value {κ α β : Type} [DecidableEq κ]
    (d : List (κ × α)) (g : κ × α → β) (k : κ) :
    dictGet? (d.map (fun p => (p.1, g p))) k
      = (d.find? (fun p => decide (p.1 = k))).map g := by
  unfold dictGet?
  rw [show (fun p : κ × β => decide (p.1 = k))
        = ((fun p : κ × β => decide (p.1 = k))) from rfl]
  rw [List.find?_map]
  have : ((fun p : κ × β => decide (p.1 = k)) ∘ fun p : κ × α => (p.1, g p))
      = fun p : κ × α => decide (p.1 = k) := rfl
  rw [this, Option.map_map]
  rfl

/-! ### Structure of the rebuilt module list -/

theorem map_prj_addCensorLast (mid : String) (c : Censor) (mods : List ModuleMeta) :
    (addCensorLast mid c mods).map prj = mods.map prj := by
  induction mods with
  | nil => rfl
  | cons m rest ih =>
    unfold addCensorLast
    by_cases h1 : rest.any (fun x => decide (x.module_id = mid))
    · simp only [if_pos h1, List.map_cons, ih]
    · rw [if_neg h1]
      by_cases h2 : m.module_id = mid
      · rw [if_pos h2]
        by_cases h3 : c ∈ m.days_censored
        · rw [if_pos h3]
        · rw [if_neg h3]; rfl
      · rw [if_neg h2]
        simp only [List.map_cons, ih]

theorem map_prj_foldl_addCensorLast (c : Censor) (sel : String × (String × String) → Bool)
    (dates : List (String × (String × String))) (mods : List ModuleMeta) :
    ((dates.foldl (fun ms p => if sel p then addCensorLast p.1 c ms else ms) mods).map prj)
      = mods.map prj := by
  induction dates generalizing mods with
  | nil => rfl
  | cons p dates ih =>
    rw [List.foldl_cons]
    by_cases h : sel p
    · rw [if_pos h, ih, map_prj_addCensorLast]
    · rw [if_neg h, ih]

theorem map_prj_applyCensorRow (py : PyOps) (dates : List (String × (String × String)))
    (mods : List ModuleMeta) (crow : CensorRow) :
    (applyCensorRow py dates mods crow).map prj = mods.map prj := by
  unfold applyCensorRow
  by_cases h : crow.pact_id ≠ "site"
  · rw [if_pos h]
    by_cases h2 : mods.any (fun m => decide (m.module_id = crow.pact_id))
    · rw [if_pos h2, map_prj_addCensorLast]
    · rw [if_neg h2]
  · rw [if_neg h]
    exact map_prj_foldl_addCensorLast _ _ dates mods

theorem foldl_prj_aux {py : PyOps} {dates : List (String × (String × String))}
    (cens : List CensorRow) (mods : List ModuleMeta) :
    ((cens.foldl (applyCensorRow py dates) mods).map prj) = mods.map prj := by
  induction cens generalizing mods with
  | nil => rfl
  | cons crow cens ih =>
    rw [List.foldl_cons, ih, map_prj_applyCensorRow]

theorem map_prj_syncBatchDoc (py : PyOps) (cens : List CensorRow)
    (ind : List (String × List Censor)) (rows : List Row) :
    (syncBatchDoc py cens ind rows).map prj = (buildModules py ind rows).map prj :=
  foldl_prj_aux cens (buildModules py ind rows)

theorem indoorsDict_congr {doc1 doc2 : List ModuleMeta}
    (h : doc1.map prj = doc2.map prj) : indoorsDict doc1 = indoorsDict doc2 := by
  unfold indoorsDict
  have e : ∀ doc : List ModuleMeta,
      doc.foldl (fun d m => dictInsert d m.module_id m.days_indoors) []
        = (doc.map prj).foldl (fun d p => dictInsert d p.1 p.2) [] := by
    intro doc
    rw [List.foldl_map]
    rfl
  rw [e, e, h]

theorem dictGet?_fold_buildModules (py : PyOps) (ind : List (String × List Censor))
    (rows : List Row) (d0 : List (String × List Censor)) (k : String) :
    dictGet? ((buildModules py ind rows).foldl
        (fun d m => dictInsert d m.module_id m.days_indoors) d0) k
      = if rows.any (fun r => decide (r.PACT_id = k)) then
          some ((dictGet? ind k).getD []) else dictGet? d0 k := by
  induction rows generalizing d0 with
  | nil => rfl
  | cons r rows ih =>
    unfold buildModules
    rw [List.map_cons, List.foldl_cons]
    have step := ih (dictInsert d0 r.PACT_id ((dictGet? ind r.PACT_id).getD []))
    unfold buildModules at step
    rw [step]
    by_cases hrows : rows.any (fun r => decide (r.PACT_id = k))
    · rw [if_pos hrows, if_pos (by rw [List.any_cons, hrows, Bool.or_true])]
    · rw [if_neg hrows]
      by_cases hr : r.PACT_id = k
      · subst hr
        rw [dictGet?_insert_self, if_pos (by rw [List.any_cons]; simp)]
      · rw [dictGet?_insert_ne _ _ _ _ (fun hh => hr hh.symm),
          if_neg (by rw [List.any_cons]; simp [hr, hrows])]

theorem dictGet?_indoorsDict_syncBatchDoc (py : PyOps) (cens : List CensorRow)
    (ind : List (String × List Censor)) (rows : List Row) (k : String)
    (hk : rows.any (fun r => decide (r.PACT_id = k))) :
    dictGet? (indoorsDict (syncBatchDoc py cens ind rows)) k
      = some ((dictGet? ind k).getD []) := by
  rw [indoorsDict_congr (map_prj_syncBatchDoc py cens ind rows)]
  unfold indoorsDict
  rw [dictGet?_fold_buildModules, if_pos hk]

/-- Resynchronizing a freshly rebuilt document rebuilds it identically:
the next pass reads back exactly the indoor lists the previous pass
wrote. -/
theorem syncBatchDoc_idem (py : PyOps) (cens : List CensorRow)
    (ind : List (String × List Censor)) (rows : List Row) :
    syncBatchDoc py cens (indoorsDict (syncBatchDoc py cens ind rows)) rows
      = syncBatchDoc py cens ind rows := by
  have hbuild : buildModules py (indoorsDict (syncBatchDoc py cens ind rows)) rows
      = buildModules py ind rows := by
    unfold buildModules
    apply List.map_congr_left
    intro r hr
    have hk : rows.any (fun r2 => decide (r2.PACT_id = r.PACT_id)) :=
      List.any_eq_true.mpr ⟨r, hr, by simp⟩
    rw [dictGet?_indoorsDict_syncBatchDoc py cens ind rows r.PACT_id hk]
    rfl
  unfold syncBatchDoc
  unfold syncBatchDoc at hbuild
  rw [hbuild]

/-! ### Frame and invariance lemmas for the synchronizer loop -/

theorem ensure_modulesCsv (sc : SiteCfg) (key : String × String) (s : St) :
    (ensureSiteMetadata sc key s).modulesCsv = s.modulesCsv := by
  unfold ensureSiteMetadata
  by_cases h : (dictGet? s.siteMeta key).isSome
  · rw [if_pos h]
  · rw [if_neg h]

theorem ensure_censoredCsv (sc : SiteCfg) (key : String × String) (s : St) :
    (ensureSiteMetadata sc key s).censoredCsv = s.censoredCsv := by
  unfold ensureSiteMetadata
  by_cases h : (dictGet? s.siteMeta key).isSome
  · rw [if_pos h]
  · rw [if_neg h]

theorem ensure_moduleMeta (sc : SiteCfg) (key : String × String) (s : St) :
    (ensureSiteMetadata sc key s).moduleMeta = s.moduleMeta := by
  unfold ensureSiteMetadata
  by_cases h : (dictGet? s.siteMeta key).isSome
  · rw [if_pos h]
  · rw [if_neg h]

theorem dictGet?_append_one_ne {κ α : Type} [DecidableEq κ]
    (d : List (κ × α)) (k k' : κ) (v : α) (h : k' ≠ k) :
    dictGet? (d ++ [(k, v)]) k' = dictGet? d k' := by
  unfold dictGet?
  rw [List.find?_append]
  have h2 : [(k, v)].find? (fun p => decide (p.1 = k')) = none := by
    rw [List.find?_cons_of_neg _ (by simpa using fun hh : k = k' => h hh.symm)]
    rfl
  rw [h2]
  cases d.find? (fun p => decide (p.1 = k')) <;> rfl

theorem ensure_siteMeta_ne (sc : SiteCfg) (key k : String × String) (s : St)
    (h : k ≠ key) :
    dictGet? (ensureSiteMetadata sc key s).siteMeta k = dictGet? s.siteMeta k := by
  unfold ensureSiteMetadata
  by_cases hp : (dictGet? s.siteMeta key).isSome
  · rw [if_pos hp]
  · rw [if_neg hp]
    exact dictGet?_append_one_ne _ _ _ _ h

theorem ensure_siteMeta_mono (sc : SiteCfg) (key k : String × String) (s : St)
    {v : SiteDoc} (h : dictGet? s.siteMeta k = some v) :
    dictGet? (ensureSiteMetadata sc key s).siteMeta k = some v := by
  unfold ensureSiteMetadata
  by_cases hp : (dictGet? s.siteMeta key).isSome
  · rw [if_pos hp]; exact h
  · rw [if_neg hp]
    exact dictGet?_append_left _ h

theorem ensure_siteMeta_isSome (sc : SiteCfg) (key : String × String) (s : St) :
    (dictGet? (ensureSiteMetadata sc key s).siteMeta key).isSome := by
  unfold ensureSiteMetadata
  by_cases hp : (dictGet? s.siteMeta key).isSome
  · rw [if_pos hp]; exact hp
  · rw [if_neg hp]
    cases hn : dictGet? s.siteMeta key with
    | some v => rw [hn] at hp; simp at hp
    | none =>
      rw [dictGet?_append_right _ hn]
      unfold dictGet?
      rw [List.find?_cons_of_pos _ (by simp)]
      rfl

theorem syncStep_modulesCsv (py : PyOps) (cfg : Cfg) (cens : List CensorRow)
    (acc : St × Option Err) (p : String × List Row) :
    (syncStep py cfg cens acc p).1.modulesCsv = acc.1.modulesCsv := by
  unfold syncStep
  cases acc.2 with
  | some e => rfl
  | none =>
    cases getSiteCfg? cfg (batchSite p.2) with
    | none => rfl
    | some sc => rw [ensure_modulesCsv]

theorem syncStep_censoredCsv (py : PyOps) (cfg : Cfg) (cens : List CensorRow)
    (acc : St × Option Err) (p : String × List Row) :
    (syncStep py cfg cens acc p).1.censoredCsv = acc.1.censoredCsv := by
  unfold syncStep
  cases acc.2 with
  | some e => rfl
  | none =>
    cases getSiteCfg? cfg (batchSite p.2) with
    | none => rfl
    | some sc => rw [ensure_censoredCsv]

theorem syncFold_modulesCsv (py : PyOps) (cfg : Cfg) (cens : List CensorRow)
    (L : List (String × List Row)) (acc : St × Option Err) :
    (L.foldl (syncStep py cfg cens) acc).1.modulesCsv = acc.1.modulesCsv := by
  induction L generalizing acc with
  | nil => rfl
  | cons q L ih =>
    rw [List.foldl_cons, ih, syncStep_modulesCsv]

theorem syncFold_censoredCsv (py : PyOps) (cfg : Cfg) (cens : List CensorRow)
    (L : List (String × List Row)) (acc : St × Option Err) :
    (L.foldl (syncStep py cfg cens) acc).1.censoredCsv = acc.1.censoredCsv := by
  induction L generalizing acc with
  | nil => rfl
  | cons q L ih =>
    rw [List.foldl_cons, ih, syncStep_censoredCsv]

theorem syncFold_error (py : PyOps) (cfg : Cfg) (cens : List CensorRow)
    (L : List (String × List Row)) (s : St) (e : Err) :
    L.foldl (syncStep py cfg cens) (s, some e) = (s, some e) := by
  induction L with
  | nil => rfl
  | cons q L ih =>
    rw [List.foldl_cons]
    exact ih

theorem syncStep_moduleMeta_ne (py : PyOps) (cfg : Cfg) (cens : List CensorRow)
    (acc : St × Option Err) (p : String × List Row) (k : String × String)
    (h : p.1 ≠ k.1) :
    dictGet? (syncStep py cfg cens acc p).1.moduleMeta k
      = dictGet? acc.1.moduleMeta k := by
  unfold syncStep
  cases acc.2 with
  | some e => rfl
  | none =>
    cases getSiteCfg? cfg (batchSite p.2) with
    | none => rfl
    | some sc =>
      rw [ensure_moduleMeta]
      exact dictGet?_insert_ne _ _ _ _ (fun hh => h (congrArg Prod.fst hh).symm)

theorem syncStep_siteMeta_ne (py : PyOps) (cfg : Cfg) (cens : List CensorRow)
    (acc : St × Option Err) (p : String × List Row) (k : String × String)
    (h : p.1 ≠ k.1) :
    dictGet? (syncStep py cfg cens acc p).1.siteMeta k
      = dictGet? acc.1.siteMeta k := by
  unfold syncStep
  cases acc.2 with
  | some e => rfl
  | none =>
    cases getSiteCfg? cfg (batchSite p.2) with
    | none => rfl
    | some sc =>
      exact ensure_siteMeta_ne _ _ _ _ (fun hh => h (congrArg Prod.fst hh).symm)

theorem syncFold_moduleMeta_frame (py : PyOps) (cfg : Cfg) (cens : List CensorRow)
    (L : List (String × List Row)) (acc : St × Option Err) (k : String × String)
    (h : ∀ p ∈ L, p.1 ≠ k.1) :
    dictGet? (L.foldl (syncStep py cfg cens) acc).1.moduleMeta k
      = dictGet? acc.1.moduleMeta k := by
  induction L generalizing acc with
  | nil => rfl
  | cons q L ih =>
    rw [List.foldl_cons, ih _ (fun p hp => h p (List.mem_cons_of_mem q hp)),
      syncStep_moduleMeta_ne _ _ _ _ _ _ (h q (List.mem_cons_self q L))]

theorem syncFold_siteMeta_frame (py : PyOps) (cfg : Cfg) (cens : List CensorRow)
    (L : List (String × List Row)) (acc : St × Option Err) (k : String × String)
    (h : ∀ p ∈ L, p.1 ≠ k.1) :
    dictGet? (L.foldl (syncStep py cfg cens) acc).1.siteMeta k
      = dictGet? acc.1.siteMeta k := by
  induction L generalizing acc with
  | nil => rfl
  | cons q L ih =>
    rw [List.foldl_cons, ih _ (fun p hp => h p (List.mem_cons_of_mem q hp)),
      syncStep_siteMeta_ne _ _ _ _ _ _ (h q (List.mem_cons_self q L))]

theorem syncStep_siteMeta_mono (py : PyOps) (cfg : Cfg) (cens : List CensorRow)
    (acc : St × Option Err) (p : String × List Row) (k : String × String)
    {v : SiteDoc} (h : dictGet? acc.1.siteMeta k = some v) :
    dictGet? (syncStep py cfg cens acc p).1.siteMeta k = some v := by
  unfold syncStep
  cases acc.2 with
  | some e => exact h
  | none =>
    cases getSiteCfg? cfg (batchSite p.2) with
    | none => exact h
    | some sc => exact ensure_siteMeta_mono _ _ _ _ h

theorem syncFold_siteMeta_mono (py : PyOps) (cfg : Cfg) (cens : List CensorRow)
    (L : List (String × List Row)) (acc : St × Option Err) (k : String × String)
    {v : SiteDoc} (h : dictGet? acc.1.siteMeta k = some v) :
    dictGet? (L.foldl (syncStep py cfg cens) acc).1.siteMeta k = some v := by
  induction L generalizing acc with
  | nil => exact h
  | cons q L ih =>
    rw [List.foldl_cons]
    exact ih _ (syncStep_siteMeta_mono _ _ _ _ _ _ h)

/-! ### Batch grouping lemmas -/

theorem batchesOf_eq_foldl (rows : List Row) :
    batchesOf rows = rows.foldl batchStep [] := rfl

theorem batchStep_inv {l : List Row} {d : List (String × List Row)} (r : Row)
    (h : BatchInv l d) : BatchInv (l ++ [r]) (batchStep d r) := by
  obtain ⟨hnd, hval, hcov⟩ := h
  unfold batchStep
  by_cases hb : d.any (fun p => decide (p.1 = batchOf r.PACT_id))
  · rw [if_pos hb]
    refine ⟨?_, ?_, ?_⟩
    · rw [List.map_map]
      exact hnd
    · intro p hp
      rcases List.mem_map.mp hp with ⟨q, hq, rfl⟩
      show (if q.1 = batchOf r.PACT_id then q.2 ++ [r] else q.2)
        = (l ++ [r]).filter (fun r2 => decide (batchOf r2.PACT_id = q.1))
      rw [List.filter_append]
      by_cases hq1 : q.1 = batchOf r.PACT_id
      · have hpr : (fun r2 : Row => decide (batchOf r2.PACT_id = q.1)) r = true := by
          show decide (batchOf r.PACT_id = q.1) = true
          exact decide_eq_true hq1.symm
        have h2 : [r].filter (fun r2 => decide (batchOf r2.PACT_id = q.1)) = [r] := by
          rw [@List.filter_cons_of_pos Row (fun r2 => decide (batchOf r2.PACT_id = q.1)) r [] hpr]
          rfl
        rw [if_pos hq1, h2, hval q hq]
      · have hpr : ¬ ((fun r2 : Row => decide (batchOf r2.PACT_id = q.1)) r = true) := by
          show ¬ (decide (batchOf r.PACT_id = q.1) = true)
          simp only [decide_eq_true_eq]
          exact fun hh => hq1 hh.symm
        have h2 : [r].filter (fun r2 => decide (batchOf r2.PACT_id = q.1)) = [] := by
          rw [@List.filter_cons_of_neg Row (fun r2 => decide (batchOf r2.PACT_id = q.1)) r [] hpr]
          rfl
        rw [if_neg hq1, h2, hval q hq, List.append_nil]
    · intro r2 hr2
      rw [List.any_map]
      rcases List.mem_append.mp hr2 with h2 | h2
      · exact hcov r2 h2
      · rw [List.mem_singleton.mp h2]
        exact hb
  · rw [if_neg hb]
    have hnotin : ∀ q ∈ d, ¬ (q.1 = batchOf r.PACT_id) := by
      intro q hq hq1
      exact hb (List.any_eq_true.mpr ⟨q, hq, by simpa using hq1⟩)
    refine ⟨?_, ?_, ?_⟩
    · rw [List.map_append]
      refine List.Nodup.append hnd (List.nodup_singleton _) ?_
      intro a ha hb2
      simp only [List.map_cons, List.map_nil] at hb2
      rw [List.mem_singleton] at hb2
      subst hb2
      rcases List.mem_map.mp ha with ⟨q, hq, hq1⟩
      exact hnotin q hq hq1
    · intro p hp
      rcases List.mem_append.mp hp with hp | hp
      · rw [hval p hp, List.filter_append]
        have : [r].filter (fun r2 => decide (batchOf r2.PACT_id = p.1)) = [] := by
          rw [List.filter_cons,
            if_neg (by simpa using fun hh => hnotin p hp hh.symm)]
          rfl
        rw [this, List.append_nil]
      · rw [List.mem_singleton.mp hp]
        simp only
        rw [List.filter_append]
        have h1 : l.filter (fun r2 => decide (batchOf r2.PACT_id = batchOf r.PACT_id)) = [] := by
          rw [List.filter_eq_nil_iff]
          intro r2 hr2
          simp only [decide_eq_true_eq]
          intro heq
          have := hcov r2 hr2
          rw [heq] at this
          exact hb this
        have h2 : [r].filter (fun r2 => decide (batchOf r2.PACT_id = batchOf r.PACT_id)) = [r] := by
          rw [List.filter_cons, if_pos (by simp)]
          rfl
        rw [h1, h2, List.nil_append]
    · intro r2 hr2
      rcases List.mem_append.mp hr2 with h2 | h2
      · rw [List.any_append]
        rw [hcov r2 h2]
        rfl
      · rw [List.mem_singleton.mp h2, List.any_append]
        have : [(batchOf r.PACT_id, [r])].any (fun p => decide (p.1 = batchOf r.PACT_id)) = true := by
          simp
        rw [this, Bool.or_true]

theorem batchesOf_inv (rows : List Row) : BatchInv rows (batchesOf rows) := by
  rw [batchesOf_eq_foldl]
  have aux : ∀ (rs : List Row) (l : List Row) (d : List (String × List Row)),
      BatchInv l d → BatchInv (l ++ rs) (rs.foldl batchStep d) := by
    intro rs
    induction rs with
    | nil => intro l d h; simpa using h
    | cons r rs ih =>
      intro l d h
      rw [List.foldl_cons]
      have := ih (l ++ [r]) (batchStep d r) (batchStep_inv r h)
      simpa using this
  have base : BatchInv [] [] := by
    refine ⟨List.nodup_nil, ?_, ?_⟩
    · intro p hp; cases hp
    · intro r hr; cases hr
  simpa using aux rows [] [] base

theorem batchesOf_keys_nodup (rows : List Row) :
    ((batchesOf rows).map Prod.fst).Nodup := (batchesOf_inv rows).1

theorem batchesOf_rows_eq_filter {rows : List Row} {b : String} {rs : List Row}
    (h : (b, rs) ∈ batchesOf rows) :
    rs = rows.filter (fun r => decide (batchOf r.PACT_id = b)) :=
  (batchesOf_inv rows).2.1 (b, rs) h

theorem batchesOf_complete {rows : List Row} {r : Row} (h : r ∈ rows) :
    ∃ rs, (batchOf r.PACT_id, rs) ∈ batchesOf rows := by
  have := (batchesOf_inv rows).2.2 r h
  rcases List.any_eq_true.mp this with ⟨p, hp, hp1⟩
  refine ⟨p.2, ?_⟩
  have : p.1 = batchOf r.PACT_id := by simpa using hp1
  rw [← this]
  exact hp

/-! ### Filesystem key uniqueness is preserved -/

theorem ensure_fsOk (sc : SiteCfg) (key : String × String) {s : St}
    (h : FsOk s) : FsOk (ensureSiteMetadata sc key s) := by
  unfold ensureSiteMetadata
  by_cases hp : (dictGet? s.siteMeta key).isSome
  · rw [if_pos hp]; exact h
  · rw [if_neg hp]
    refine ⟨h.1, ?_⟩
    have hkey : key ∉ s.siteMeta.map Prod.fst := by
      intro hk
      rcases List.mem_map.mp hk with ⟨q, hq, hq1⟩
      apply hp
      unfold dictGet?
      have hs : (s.siteMeta.find? (fun p => decide (p.1 = key))).isSome :=
        List.find?_isSome.mpr ⟨q, hq, by simpa using hq1⟩
      cases hf : s.siteMeta.find? (fun p => decide (p.1 = key)) with
      | none => rw [hf] at hs; simp at hs
      | some q2 => simp
    rw [List.map_append]
    refine List.Nodup.append h.2 (List.nodup_singleton _) ?_
    intro a ha hb
    simp only [List.map_cons, List.map_nil] at hb
    rw [List.mem_singleton] at hb
    subst hb
    exact hkey ha

theorem syncStep_fsOk (py : PyOps) (cfg : Cfg) (cens : List CensorRow)
    (acc : St × Option Err) (p : String × List Row) (h : FsOk acc.1) :
    FsOk (syncStep py cfg cens acc p).1 := by
  unfold syncStep
  cases acc.2 with
  | some e => exact h
  | none =>
    cases getSiteCfg? cfg (batchSite p.2) with
    | none => exact h
    | some sc =>
      exact ensure_fsOk _ _ ⟨nodup_map_fst_dictInsert _ _ h.1, h.2⟩

theorem syncFold_fsOk (py : PyOps) (cfg : Cfg) (cens : List CensorRow)
    (L : List (String × List Row)) (acc : St × Option Err) (h : FsOk acc.1) :
    FsOk (L.foldl (syncStep py cfg cens) acc).1 := by
  induction L generalizing acc with
  | nil => exact h
  | cons q L ih =>
    rw [List.foldl_cons]
    exact ih _ (syncStep_fsOk _ _ _ _ _ h)

/-! ### The synchronizer loop, step by step -/

theorem syncStep_eq_some (py : PyOps) (cfg : Cfg) (cens : List CensorRow)
    (s : St) (p : String × List Row) {sc : SiteCfg}
    (hsc : getSiteCfg? cfg (batchSite p.2) = some sc) :
    syncStep py cfg cens (s, none) p = (syncWrite py cens sc s p, none) := by
  unfold syncStep syncWrite
  rw [hsc]

theorem syncStep_eq_none (py : PyOps) (cfg : Cfg) (cens : List CensorRow)
    (s : St) (p : String × List Row)
    (hsc : getSiteCfg? cfg (batchSite p.2) = none) :
    syncStep py cfg cens (s, none) p
      = (s, some (Err.configError (batchSite p.2))) := by
  unfold syncStep
  rw [hsc]

theorem syncWrite_moduleMeta_self (py : PyOps) (cens : List CensorRow)
    (sc : SiteCfg) (s : St) (p : String × List Row) :
    dictGet? (syncWrite py cens sc s p).moduleMeta (p.1, sc.outdoor_directory)
      = some (syncBatchDoc py cens
          (indoorsDict ((dictGet? s.moduleMeta (p.1, sc.outdoor_directory)).getD []))
          p.2) := by
  unfold syncWrite
  rw [ensure_moduleMeta]
  exact dictGet?_insert_self _ _ _

theorem syncWrite_moduleMeta_ne (py : PyOps) (cens : List CensorRow)
    (sc : SiteCfg) (s : St) (p : String × List Row) (k : String × String)
    (h : p.1 ≠ k.1) :
    dictGet? (syncWrite py cens sc s p).moduleMeta k = dictGet? s.moduleMeta k := by
  unfold syncWrite
  rw [ensure_moduleMeta]
  exact dictGet?_insert_ne _ _ _ _
    (fun hh : k = (p.1, sc.outdoor_directory) => h (congrArg Prod.fst hh).symm)

theorem syncWrite_siteMeta_isSome (py : PyOps) (cens : List CensorRow)
    (sc : SiteCfg) (s : St) (p : String × List Row) :
    (dictGet? (syncWrite py cens sc s p).siteMeta (p.1, sc.outdoor_directory)).isSome := by
  unfold syncWrite
  exact ensure_siteMeta_isSome _ _ _

/-- The head batch's key does not recur in the tail of a key-distinct
grouping. -/
theorem head_key_notin {q : String × List Row} {L : List (String × List Row)}
    (hnd : ((q :: L).map Prod.fst).Nodup) : ∀ p ∈ L, p.1 ≠ q.1 := by
  rw [List.map_cons] at hnd
  have h1 := (List.nodup_cons.mp hnd).1
  intro p hp hp1
  exact h1 (by rw [← hp1]; exact List.mem_map.mpr ⟨p, hp, rfl⟩)

theorem tail_keys_nodup {q : String × List Row} {L : List (String × List Row)}
    (hnd : ((q :: L).map Prod.fst).Nodup) : (L.map Prod.fst).Nodup := by
  rw [List.map_cons] at hnd
  exact (List.nodup_cons.mp hnd).2

/-- Where a successful synchronizer run leaves each batch's
module-metadata document: rebuilt by `syncBatchDoc` from the old
document's indoor lists. -/
theorem syncFold_doc (py : PyOps) (cfg : Cfg) (cens : List CensorRow) :
    ∀ (L : List (String × List Row)) (s s' : St) (b : String) (rows : List Row)
      (sc : SiteCfg), (L.map Prod.fst).Nodup →
      L.foldl (syncStep py cfg cens) (s, none) = (s', none) →
      (b, rows) ∈ L →
      getSiteCfg? cfg (batchSite rows) = some sc →
      dictGet? s'.moduleMeta (b, sc.outdoor_directory)
        = some (syncBatchDoc py cens
            (indoorsDict ((dictGet? s.moduleMeta (b, sc.outdoor_directory)).getD []))
            rows) := by
  intro L
  induction L with
  | nil =>
    intro s s' b rows sc _ _ hmem
    cases hmem
  | cons q L ih =>
    intro s s' b rows sc hnd hrun hmem hsc
    rw [List.foldl_cons] at hrun
    cases hq : getSiteCfg? cfg (batchSite q.2) with
    | none =>
      rw [syncStep_eq_none py cfg cens s q hq, syncFold_error] at hrun
      exact absurd (congrArg Prod.snd hrun) (by simp)
    | some scq =>
      rw [syncStep_eq_some py cfg cens s q hq] at hrun
      rcases List.mem_cons.mp hmem with heq | hmem2
      · have hqe : q = (b, rows) := heq.symm
        subst hqe
        have hscq : scq = sc := by
          rw [hq] at hsc
          exact Option.some.inj hsc
        subst hscq
        have hfr := syncFold_moduleMeta_frame py cfg cens L
          (syncWrite py cens scq s (b, rows), none) (b, scq.outdoor_directory)
          (fun p hp => head_key_notin hnd p hp)
        rw [hrun] at hfr
        rw [show ((s', none).1 : St) = s' from rfl] at hfr
        rw [hfr]
        exact syncWrite_moduleMeta_self py cens scq s (b, rows)
      · have hq1b : q.1 ≠ b :=
          fun hh => head_key_notin hnd (b, rows) hmem2 hh.symm
        have hrec := ih (syncWrite py cens scq s q) s' b rows sc
          (tail_keys_nodup hnd) hrun hmem2 hsc
        rw [syncWrite_moduleMeta_ne py cens scq s q (b, sc.outdoor_directory) hq1b]
          at hrec
        exact hrec

/-- Rerunning the loop on its own output changes nothing. -/
theorem syncFold_fix (py : PyOps) (cfg : Cfg) (cens : List CensorRow) :
    ∀ (L : List (String × List Row)) (s s' : St), (L.map Prod.fst).Nodup →
      FsOk s' →
      L.foldl (syncStep py cfg cens) (s, none) = (s', none) →
      L.foldl (syncStep py cfg cens) (s', none) = (s', none) := by
  intro L
  induction L with
  | nil =>
    intro s s' _ _ hrun
    rfl
  | cons q L ih =>
    intro s s' hnd hfs hrun
    rw [List.foldl_cons] at hrun
    cases hq : getSiteCfg? cfg (batchSite q.2) with
    | none =>
      rw [syncStep_eq_none py cfg cens s q hq, syncFold_error] at hrun
      exact absurd (congrArg Prod.snd hrun) (by simp)
    | some scq =>
      rw [syncStep_eq_some py cfg cens s q hq] at hrun
      have hnd2 : (L.map Prod.fst).Nodup := tail_keys_nodup hnd
      have hq1L : ∀ p ∈ L, p.1 ≠ (q.1, scq.outdoor_directory).1 :=
        fun p hp => head_key_notin hnd p hp
      have hdoc : dictGet? s'.moduleMeta (q.1, scq.outdoor_directory)
          = some (syncBatchDoc py cens
              (indoorsDict ((dictGet? s.moduleMeta (q.1, scq.outdoor_directory)).getD []))
              q.2) := by
        have hfr := syncFold_moduleMeta_frame py cfg cens L
          (syncWrite py cens scq s q, none) (q.1, scq.outdoor_directory) hq1L
        rw [hrun] at hfr
        rw [show ((s', none).1 : St) = s' from rfl] at hfr
        rw [hfr]
        exact syncWrite_moduleMeta_self py cens scq s q
      have hsite : (dictGet? s'.siteMeta (q.1, scq.outdoor_directory)).isSome := by
        have h0 := syncWrite_siteMeta_isSome py cens scq s q
        rcases Option.isSome_iff_exists.mp h0 with ⟨v, hv⟩
        have h1 := syncFold_siteMeta_mono py cfg cens L
          (syncWrite py cens scq s q, none) (q.1, scq.outdoor_directory) hv
        rw [hrun] at h1
        rw [show ((s', none).1 : St) = s' from rfl] at h1
        rw [h1]
        rfl
      have hidem : syncBatchDoc py cens
          (indoorsDict ((dictGet? s'.moduleMeta (q.1, scq.outdoor_directory)).getD []))
          q.2
          = syncBatchDoc py cens
              (indoorsDict ((dictGet? s.moduleMeta (q.1, scq.outdoor_directory)).getD []))
              q.2 := by
        rw [hdoc]
        exact syncBatchDoc_idem py cens _ q.2
      have hwrite : syncWrite py cens scq s' q = s' := by
        unfold syncWrite
        show ensureSiteMetadata scq (q.1, scq.outdoor_directory) { s' with moduleMeta := dictInsert s'.moduleMeta (q.1, scq.outdoor_directory) (syncBatchDoc py cens (indoorsDict ((dictGet? s'.moduleMeta (q.1, scq.outdoor_directory)).getD [])) q.2) } = s'
        rw [hidem, dictInsert_eq_self hdoc hfs.1]
        have hself : ({ s' with moduleMeta := s'.moduleMeta } : St) = s' := rfl
        rw [hself]
        unfold ensureSiteMetadata
        rw [if_pos hsite]
      rw [List.foldl_cons, syncStep_eq_some py cfg cens s' q hq, hwrite]
      exact ih (syncWrite py cens scq s q) s' hnd2 hfs hrun

/-- The loop succeeds when every batch's site key is configured. -/
theorem syncFold_ok (py : PyOps) (cfg : Cfg) (cens : List CensorRow) :
    ∀ (L : List (String × List Row)) (s : St),
      (∀ p ∈ L, (getSiteCfg? cfg (batchSite p.2)).isSome) →
      ∃ s', L.foldl (syncStep py cfg cens) (s, none) = (s', none) := by
  intro L
  induction L with
  | nil => intro s _; exact ⟨s, rfl⟩
  | cons q L ih =>
    intro s hall
    have hq := hall q (List.mem_cons_self q L)
    rcases Option.isSome_iff_exists.mp hq with ⟨sc, hsc⟩
    rw [List.foldl_cons, syncStep_eq_some py cfg cens s q hsc]
    exact ih (syncWrite py cens sc s q) (fun p hp => hall p (List.mem_cons_of_mem q hp))

/-! ### Shape of the rebuilt records: ids, exclusion order, duplicates -/

theorem map_id_of_map_prj {l1 l2 : List ModuleMeta} (h : l1.map prj = l2.map prj) :
    l1.map (fun m => m.module_id) = l2.map (fun m => m.module_id) := by
  have h2 := congrArg (List.map Prod.fst) h
  rw [List.map_map, List.map_map] at h2
  exact h2

theorem map_id_syncBatchDoc (py : PyOps) (cens : List CensorRow)
    (ind : List (String × List Censor)) (rows : List Row) :
    (syncBatchDoc py cens ind rows).map (fun m => m.module_id)
      = rows.map (fun r => r.PACT_id) := by
  rw [map_id_of_map_prj (map_prj_syncBatchDoc py cens ind rows)]
  unfold buildModules
  rw [List.map_map]
  rfl

theorem sublist_drop_last {l L : List Censor} {c : Censor}
    (h : l.Sublist (L ++ [c])) (hc : c ∉ l) : l.Sublist L := by
  rcases List.sublist_append_iff.mp h with ⟨l3, l4, rfl, h3, h4⟩
  rcases List.sublist_singleton.mp h4 with h5 | h5
  · subst h5
    simpa using h3
  · subst h5
    exact absurd (List.mem_append.mpr (Or.inr (List.mem_singleton_self c))) hc

theorem addCensorLast_sublist {L : List Censor} {c : Censor} {mods : List ModuleMeta}
    (mid : String)
    (h : ∀ m ∈ mods, m.days_censored.Sublist (L ++ [c])) :
    ∀ m' ∈ addCensorLast mid c mods, m'.days_censored.Sublist (L ++ [c]) := by
  induction mods with
  | nil => intro m' hm'; cases hm'
  | cons m rest ih =>
    intro m' hm'
    unfold addCensorLast at hm'
    by_cases h1 : rest.any (fun x => decide (x.module_id = mid))
    · rw [if_pos h1] at hm'
      rcases List.mem_cons.mp hm' with rfl | hm2
      · exact h m' (List.mem_cons_self _ _)
      · exact ih (fun x hx => h x (List.mem_cons_of_mem _ hx)) m' hm2
    · rw [if_neg h1] at hm'
      by_cases h2 : m.module_id = mid
      · rw [if_pos h2] at hm'
        by_cases h3 : c ∈ m.days_censored
        · rw [if_pos h3] at hm'
          rcases List.mem_cons.mp hm' with rfl | hm2
          · exact h m' (List.mem_cons_self _ _)
          · exact h m' (List.mem_cons_of_mem _ hm2)
        · rw [if_neg h3] at hm'
          rcases List.mem_cons.mp hm' with rfl | hm2
          · exact (sublist_drop_last (h m (List.mem_cons_self m rest)) h3).append
              (List.Sublist.refl [c])
          · exact h m' (List.mem_cons_of_mem _ hm2)
      · rw [if_neg h2] at hm'
        rcases List.mem_cons.mp hm' with rfl | hm2
        · exact h m' (List.mem_cons_self _ _)
        · exact ih (fun x hx => h x (List.mem_cons_of_mem _ hx)) m' hm2

theorem applyCensorRow_sublist {py : PyOps} {dates : List (String × (String × String))}
    {L : List Censor} {mods : List ModuleMeta} (crow : CensorRow)
    (h : ∀ m ∈ mods, m.days_censored.Sublist L) :
    ∀ m' ∈ applyCensorRow py dates mods crow,
      m'.days_censored.Sublist (L ++ [mkCensor crow]) := by
  have hweak : ∀ m ∈ mods, m.days_censored.Sublist (L ++ [mkCensor crow]) :=
    fun m hm => (h m hm).trans (List.sublist_append_left L [mkCensor crow])
  unfold applyCensorRow
  by_cases hs : crow.pact_id ≠ "site"
  · rw [if_pos hs]
    by_cases h2 : mods.any (fun m => decide (m.module_id = crow.pact_id))
    · rw [if_pos h2]
      exact addCensorLast_sublist _ hweak
    · rw [if_neg h2]
      exact hweak
  · rw [if_neg hs]
    have aux : ∀ (ds : List (String × (String × String))) (ms : List ModuleMeta),
        (∀ m ∈ ms, m.days_censored.Sublist (L ++ [mkCensor crow])) →
        ∀ m' ∈ ds.foldl (fun ms2 p =>
            if censorSelectsSync py p.2 crow.start crow.end_ then
              addCensorLast p.1 (mkCensor crow) ms2
            else ms2) ms,
          m'.days_censored.Sublist (L ++ [mkCensor crow]) := by
      intro ds
      induction ds with
      | nil => intro ms hms; exact hms
      | cons p ds ih =>
        intro ms hms
        rw [List.foldl_cons]
        by_cases hp : censorSelectsSync py p.2 crow.start crow.end_
        · rw [if_pos hp]
          exact ih _ (addCensorLast_sublist _ hms)
        · rw [if_neg hp]
          exact ih _ hms
    exact aux dates mods hweak

theorem syncBatchDoc_sublist (py : PyOps) (cens : List CensorRow)
    (ind : List (String × List Censor)) (rows : List Row) :
    ∀ m ∈ syncBatchDoc py cens ind rows,
      m.days_censored.Sublist (cens.map mkCensor) := by
  have aux : ∀ (cs : List CensorRow) (mods : List ModuleMeta) (L : List Censor),
      (∀ m ∈ mods, m.days_censored.Sublist L) →
      ∀ m' ∈ cs.foldl (applyCensorRow py (moduleDates rows)) mods,
        m'.days_censored.Sublist (L ++ cs.map mkCensor) := by
    intro cs
    induction cs with
    | nil =>
      intro mods L h m' hm'
      rw [List.map_nil, List.append_nil]
      exact h m' hm'
    | cons crow cs ih =>
      intro mods L h m' hm'
      rw [List.foldl_cons] at hm'
      have h2 := ih (applyCensorRow py (moduleDates rows) mods crow) (L ++ [mkCensor crow])
        (applyCensorRow_sublist crow h) m' hm'
      rw [List.append_assoc] at h2
      exact h2
  intro m hm
  have h0 : ∀ m2 ∈ buildModules py ind rows, m2.days_censored.Sublist [] := by
    intro m2 hm2
    rcases List.mem_map.mp hm2 with ⟨r, hr, rfl⟩
    exact List.Sublist.refl []
  have := aux cens (buildModules py ind rows) [] h0 m hm
  rwa [List.nil_append] at this

theorem addCensorLast_nodup {c : Censor} {mods : List ModuleMeta} (mid : String)
    (h : ∀ m ∈ mods, m.days_censored.Nodup) :
    ∀ m' ∈ addCensorLast mid c mods, m'.days_censored.Nodup := by
  induction mods with
  | nil => intro m' hm'; cases hm'
  | cons m rest ih =>
    intro m' hm'
    unfold addCensorLast at hm'
    by_cases h1 : rest.any (fun x => decide (x.module_id = mid))
    · rw [if_pos h1] at hm'
      rcases List.mem_cons.mp hm' with rfl | hm2
      · exact h m' (List.mem_cons_self _ _)
      · exact ih (fun x hx => h x (List.mem_cons_of_mem _ hx)) m' hm2
    · rw [if_neg h1] at hm'
      by_cases h2 : m.module_id = mid
      · rw [if_pos h2] at hm'
        by_cases h3 : c ∈ m.days_censored
        · rw [if_pos h3] at hm'
          rcases List.mem_cons.mp hm' with rfl | hm2
          · exact h m' (List.mem_cons_self _ _)
          · exact h m' (List.mem_cons_of_mem _ hm2)
        · rw [if_neg h3] at hm'
          rcases List.mem_cons.mp hm' with rfl | hm2
          · refine List.Nodup.append (h m (List.mem_cons_self m rest))
              (List.nodup_singleton c) ?_
            intro a ha hb
            rw [List.mem_singleton] at hb
            subst hb
            exact h3 ha
          · exact h m' (List.mem_cons_of_mem _ hm2)
      · rw [if_neg h2] at hm'
        rcases List.mem_cons.mp hm' with rfl | hm2
        · exact h m' (List.mem_cons_self _ _)
        · exact ih (fun x hx => h x (List.mem_cons_of_mem _ hx)) m' hm2

theorem applyCensorRow_nodup {py : PyOps} {dates : List (String × (String × String))}
    {mods : List ModuleMeta} (crow : CensorRow)
    (h : ∀ m ∈ mods, m.days_censored.Nodup) :
    ∀ m' ∈ applyCensorRow py dates mods crow, m'.days_censored.Nodup := by
  unfold applyCensorRow
  by_cases hs : crow.pact_id ≠ "site"
  · rw [if_pos hs]
    by_cases h2 : mods.any (fun m => decide (m.module_id = crow.pact_id))
    · rw [if_pos h2]
      exact addCensorLast_nodup _ h
    · rw [if_neg h2]
      exact h
  · rw [if_neg hs]
    have aux : ∀ (ds : List (String × (String × String))) (ms : List ModuleMeta),
        (∀ m ∈ ms, m.days_censored.Nodup) →
        ∀ m' ∈ ds.foldl (fun ms2 p =>
            if censorSelectsSync py p.2 crow.start crow.end_ then
              addCensorLast p.1 (mkCensor crow) ms2
            else ms2) ms,
          m'.days_censored.Nodup := by
      intro ds
      induction ds with
      | nil => intro ms hms; exact hms
      | cons p ds ih =>
        intro ms hms
        rw [List.foldl_cons]
        by_cases hp : censorSelectsSync py p.2 crow.start crow.end_
        · rw [if_pos hp]
          exact ih _ (addCensorLast_nodup _ hms)
        · rw [if_neg hp]
          exact ih _ hms
    exact aux dates mods h

theorem syncBatchDoc_nodup (py : PyOps) (cens : List CensorRow)
    (ind : List (String × List Censor)) (rows : List Row) :
    ∀ m ∈ syncBatchDoc py cens ind rows, m.days_censored.Nodup := by
  have aux : ∀ (cs : List CensorRow) (mods : List ModuleMeta),
      (∀ m ∈ mods, m.days_censored.Nodup) →
      ∀ m' ∈ cs.foldl (applyCensorRow py (moduleDates rows)) mods,
        m'.days_censored.Nodup := by
    intro cs
    induction cs with
    | nil => intro mods h; exact h
    | cons crow cs ih =>
      intro mods h
      rw [List.foldl_cons]
      exact ih _ (applyCensorRow_nodup crow h)
  intro m hm
  refine aux cens (buildModules py ind rows) ?_ m hm
  intro m2 hm2
  rcases List.mem_map.mp hm2 with ⟨r, hr, rfl⟩
  exact List.nodup_nil

/-! ### Claim theorems: synchronizer -/

theorem sync_preserves_csvs (py : PyOps) (cfg : Cfg) {s s1 : St} {e : Option Err}
    (h : sync_metadata py cfg s = (s1, e)) :
    s1.modulesCsv = s.modulesCsv ∧ s1.censoredCsv = s.censoredCsv := by
  unfold sync_metadata at h
  constructor
  · have h1 := syncFold_modulesCsv py cfg s.censoredCsv (batchesOf s.modulesCsv) (s, none)
    rw [h] at h1
    exact h1
  · have h1 := syncFold_censoredCsv py cfg s.censoredCsv (batchesOf s.modulesCsv) (s, none)
    rw [h] at h1
    exact h1

/-- C1: resync is idempotent.  A successful `sync_metadata` run followed by
a second run on the unchanged CSV stores returns the same state with no
error — every MetadataDocument (and SiteDocument) is byte-identical
across the two runs.  Moreover each rebuilt document lists its modules in
Roster Store order (its ids are the batch's roster ids in order) and each
record's exclusion list is a subsequence of the Exclusion Log in scan
order. -/
theorem c1_resync_idempotent (py : PyOps) (cfg : Cfg) {s s1 : St}
    (hfs : FsOk s) (h : sync_metadata py cfg s = (s1, none)) :
    sync_metadata py cfg s1 = (s1, none) ∧
    (∀ b rows sc, (b, rows) ∈ batchesOf s.modulesCsv →
      getSiteCfg? cfg (batchSite rows) = some sc →
      ∃ doc, dictGet? s1.moduleMeta (b, sc.outdoor_directory) = some doc ∧
        doc.map (fun m => m.module_id) = rows.map (fun r => r.PACT_id) ∧
        ∀ m ∈ doc, m.days_censored.Sublist (s.censoredCsv.map mkCensor)) := by
  obtain ⟨hm, hc⟩ := sync_preserves_csvs py cfg h
  have hrun : (batchesOf s.modulesCsv).foldl (syncStep py cfg s.censoredCsv) (s, none)
      = (s1, none) := by
    unfold sync_metadata at h
    exact h
  constructor
  · unfold sync_metadata
    rw [hm, hc]
    have hfs1 : FsOk s1 := by
      have h2 := syncFold_fsOk py cfg s.censoredCsv (batchesOf s.modulesCsv) (s, none) hfs
      rw [hrun] at h2
      exact h2
    exact syncFold_fix py cfg s.censoredCsv (batchesOf s.modulesCsv) s s1
      (batchesOf_keys_nodup _) hfs1 hrun
  · intro b rows sc hmem hsc
    have hdoc := syncFold_doc py cfg s.censoredCsv (batchesOf s.modulesCsv) s s1 b rows sc
      (batchesOf_keys_nodup _) hrun hmem hsc
    refine ⟨_, hdoc, map_id_syncBatchDoc py s.censoredCsv _ rows, ?_⟩
    intro m hm2
    exact syncBatchDoc_sublist py s.censoredCsv _ rows m hm2

/-- C10: a synchronizer pass rewrites each group's MetadataDocument to
hold exactly the roster's modules for that group, in roster order; any
record whose module id no longer has a roster row is dropped entirely
(with its indoor list) — the rebuilt document has no record for such an
id. -/
theorem c10_sync_rebuilds_docs (py : PyOps) (cfg : Cfg) {s s1 : St}
    (h : sync_metadata py cfg s = (s1, none))
    {b : String} {rows : List Row} {sc : SiteCfg}
    (hmem : (b, rows) ∈ batchesOf s.modulesCsv)
    (hsc : getSiteCfg? cfg (batchSite rows) = some sc) :
    rows = s.modulesCsv.filter (fun r => decide (batchOf r.PACT_id = b)) ∧
    ∃ doc, dictGet? s1.moduleMeta (b, sc.outdoor_directory) = some doc ∧
      doc = syncBatchDoc py s.censoredCsv
          (indoorsDict ((dictGet? s.moduleMeta (b, sc.outdoor_directory)).getD []))
          rows ∧
      doc.map (fun m => m.module_id) = rows.map (fun r => r.PACT_id) ∧
      ∀ mid, mid ∉ rows.map (fun r => r.PACT_id) → ∀ m ∈ doc, m.module_id ≠ mid := by
  have hrun : (batchesOf s.modulesCsv).foldl (syncStep py cfg s.censoredCsv) (s, none)
      = (s1, none) := by
    unfold sync_metadata at h
    exact h
  refine ⟨batchesOf_rows_eq_filter hmem, ?_⟩
  have hdoc := syncFold_doc py cfg s.censoredCsv (batchesOf s.modulesCsv) s s1 b rows sc
    (batchesOf_keys_nodup _) hrun hmem hsc
  refine ⟨_, hdoc, rfl, map_id_syncBatchDoc py s.censoredCsv _ rows, ?_⟩
  intro mid hmid m hm2 hmeq
  apply hmid
  rw [← map_id_syncBatchDoc py s.censoredCsv
    (indoorsDict ((dictGet? s.moduleMeta (b, sc.outdoor_directory)).getD [])) rows]
  rw [← hmeq]
  exact List.mem_map.mpr ⟨m, hm2, rfl⟩

/-! ### Claim theorems: registration and retirement -/

/-- C6: registering an id that already exists in the roster (with a valid
site key) fails with the duplicate error and returns the state completely
unchanged: the duplicate check precedes every write. -/
theorem c6_duplicate_register_rejected (py : PyOps) (cfg : Cfg) (s : St)
    (site : String) (sc : SiteCfg) (pid psel area mtype sd notes : String)
    (hsc : getSiteCfg? cfg site = some sc)
    (hdup : s.modulesCsv.any (fun r => decide (r.PACT_id = pid))) :
    add_module py cfg pid psel area mtype sd site notes s
      = (s, some (Err.duplicateId pid)) := by
  unfold add_module
  simp only [hsc]
  rw [if_pos hdup]

/-- C6 witness: re-registering `P-0001-01` on the concrete state fails
with `duplicateId` and leaves the state untouched. -/
theorem c6_duplicate_register_rejected_witness :
    add_module evalPy cfgW "P-0001-01" "2" "2.0" "OPV" "2023-03-01" "SNL" "" sW
      = (sW, some (Err.duplicateId "P-0001-01")) :=
  c6_duplicate_register_rejected evalPy cfgW sW "SNL" scW "P-0001-01" "2" "2.0"
    "OPV" "2023-03-01" "" rfl (by decide)

/-- C7: retiring a module with an active roster row succeeds, leaves every
document store and the exclusion log untouched, and rewrites the roster
row-by-row: unmasked rows (in particular every row of any other module)
are unchanged, and masked rows change exactly the `Active` and `End_date`
fields. -/
theorem c7_retirement_frame (py : PyOps) (pid ed : String) {s : St}
    (hact : s.modulesCsv.any (retireMask pid)) :
    ∃ t, retire_module py pid ed s = (t, none) ∧
      t.moduleMeta = s.moduleMeta ∧ t.siteMeta = s.siteMeta ∧
      t.censoredCsv = s.censoredCsv ∧
      t.modulesCsv.length = s.modulesCsv.length ∧
      ∀ i (hi : i < s.modulesCsv.length) (hi2 : i < t.modulesCsv.length),
        (¬ retireMask pid (s.modulesCsv.get ⟨i, hi⟩) = true →
            t.modulesCsv.get ⟨i, hi2⟩ = s.modulesCsv.get ⟨i, hi⟩) ∧
        (retireMask pid (s.modulesCsv.get ⟨i, hi⟩) = true →
            t.modulesCsv.get ⟨i, hi2⟩
              = { s.modulesCsv.get ⟨i, hi⟩ with
                  Active := "N", End_date := py.mdy ed }) := by
  unfold retire_module
  rw [if_pos hact]
  refine ⟨_, rfl, rfl, rfl, rfl, List.length_map _ _, ?_⟩
  intro i hi hi2
  constructor
  · intro hmask
    rw [List.get_map]
    rw [if_neg hmask]
  · intro hmask
    rw [List.get_map]
    rw [if_pos hmask]

/-- C7 witness: retiring `P-0001-01` on the concrete state. -/
theorem c7_retirement_frame_witness :
    ∃ t, retire_module evalPy "P-0001-01" "2023-06-30" sW = (t, none) ∧
      t.moduleMeta = sW.moduleMeta ∧ t.siteMeta = sW.siteMeta ∧
      t.censoredCsv = sW.censoredCsv ∧
      t.modulesCsv.length = sW.modulesCsv.length ∧
      ∀ i (hi : i < sW.modulesCsv.length) (hi2 : i < t.modulesCsv.length),
        (¬ retireMask "P-0001-01" (sW.modulesCsv.get ⟨i, hi⟩) = true →
            t.modulesCsv.get ⟨i, hi2⟩ = sW.modulesCsv.get ⟨i, hi⟩) ∧
        (retireMask "P-0001-01" (sW.modulesCsv.get ⟨i, hi⟩) = true →
            t.modulesCsv.get ⟨i, hi2⟩
              = { sW.modulesCsv.get ⟨i, hi⟩ with
                  Active := "N", End_date := evalPy.mdy "2023-06-30" }) :=
  c7_retirement_frame evalPy "P-0001-01" "2023-06-30" (by decide)

/-! ### Claim theorems: the exclusion log is appended unconditionally (C5) -/

theorem addCensorToMetadata_censoredCsv (pid : String) (c : Censor)
    (key : String × String) (s : St) :
    (addCensorToMetadata pid c key s).censoredCsv = s.censoredCsv := by
  unfold addCensorToMetadata
  cases dictGet? s.moduleMeta key with
  | none => rfl
  | some data => rfl

theorem addCensorToMetadata_modulesCsv (pid : String) (c : Censor)
    (key : String × String) (s : St) :
    (addCensorToMetadata pid c key s).modulesCsv = s.modulesCsv := by
  unfold addCensorToMetadata
  cases dictGet? s.moduleMeta key with
  | none => rfl
  | some data => rfl

theorem addCensorToMetadata_siteMeta (pid : String) (c : Censor)
    (key : String × String) (s : St) :
    (addCensorToMetadata pid c key s).siteMeta = s.siteMeta := by
  unfold addCensorToMetadata
  cases dictGet? s.moduleMeta key with
  | none => rfl
  | some data => rfl

theorem censorFold_censoredCsv (py : PyOps) (cfg : Cfg) (c : Censor)
    (cs ce : String) (rows : List Row) (acc : St × Option Err) :
    (rows.foldl (fun acc r =>
      match acc.2 with
      | some e => (acc.1, some e)
      | none =>
        if censorSelectsImmediate py r cs ce then
          match getSiteCfg? cfg (siteOf r) with
          | none => (acc.1, some (.configError (siteOf r)))
          | some sc =>
            (addCensorToMetadata r.PACT_id c
              (batchOf r.PACT_id, sc.outdoor_directory) acc.1, none)
        else acc) acc).1.censoredCsv = acc.1.censoredCsv := by
  induction rows generalizing acc with
  | nil => rfl
  | cons r rows ih =>
    rw [List.foldl_cons, ih]
    cases acc.2 with
    | some e => rfl
    | none =>
      by_cases hsel : censorSelectsImmediate py r cs ce
      · rw [if_pos hsel]
        cases getSiteCfg? cfg (siteOf r) with
        | none => rfl
        | some sc => exact addCensorToMetadata_censoredCsv _ _ _ _
      · rw [if_neg hsel]

theorem add_censor_appends_log (py : PyOps) (cfg : Cfg)
    (pid start end_ comment : String) (s : St) :
    ((add_censor py cfg pid start end_ comment s).1).censoredCsv
      = s.censoredCsv ++ [⟨pid, start, end_, comment⟩] := by
  unfold add_censor
  by_cases hs : pid = "site"
  · rw [if_pos hs]
    rw [censorFold_censoredCsv]
  · rw [if_neg hs]
    split
    · rfl
    · split
      · rfl
      · exact addCensorToMetadata_censoredCsv _ _ _ _

/-- C5 (amended): `add_censor` performs no window validation at all.
Whatever the window — even one whose end precedes its start — and
whatever else happens afterwards, the call's first action stands: the
state returned (on success or failure) has exactly the new row appended
to the censored-days CSV. -/
theorem c5_exclusion_log_always_appended (py : PyOps) (cfg : Cfg)
    (pid start end_ comment : String) (s : St) :
    ((add_censor py cfg pid start end_ comment s).1).censoredCsv
      = s.censoredCsv ++ [⟨pid, start, end_, comment⟩] :=
  add_censor_appends_log py cfg pid start end_ comment s

/-- C5 counterexample: on the concrete state, an exclude call whose window
has `end < start` (under the concrete date evaluation) is not rejected —
it returns no error and the Exclusion Log has gained the malformed row. -/
theorem c5_counterexample :
    evalPy.ts "2023-02-01" < evalPy.ts "2023-02-02" ∧
    (add_censor evalPy cfgW "P-0001-01" "2023-02-02" "2023-02-01" "typo" sW).2 = none ∧
    (add_censor evalPy cfgW "P-0001-01" "2023-02-02" "2023-02-01" "typo" sW).1.censoredCsv
      = sW.censoredCsv ++ [⟨"P-0001-01", "2023-02-02", "2023-02-01", "typo"⟩] := by
  refine ⟨by decide, rfl, rfl⟩

/-! ### Claim theorems: excluded-day (snow-day) handling (C8) -/

theorem dictGet?_map_value_keyfun {κ α β : Type} [DecidableEq κ]
    (d : List (κ × α)) (g : κ → α → β) (k : κ) :
    dictGet? (d.map (fun p => (p.1, g p.1 p.2))) k = (dictGet? d k).map (g k) := by
  induction d with
  | nil => rfl
  | cons p d ih =>
    by_cases hp : p.1 = k
    · subst hp
      unfold dictGet?
      rw [List.map_cons, List.find?_cons_of_pos _ (by simp),
        List.find?_cons_of_pos _ (by simp)]
      rfl
    · unfold dictGet?
      rw [List.map_cons, List.find?_cons_of_neg _ (by simpa using hp),
        List.find?_cons_of_neg _ (by simpa using hp)]
      exact ih

theorem add_snow_day_lookup (py : PyOps) (cfg : Cfg) (date : String) (s : St)
    (k : String × String) :
    dictGet? (add_snow_day py cfg date s).1.siteMeta k
      = (dictGet? s.siteMeta k).map (fun doc =>
          if globMatch k.1
              && (cfg.sites.map (fun p => p.2.outdoor_directory)).contains k.2 then
            if py.iso date ∈ doc.snow_days then doc
            else { doc with snow_days :=
                    (doc.snow_days ++ [py.iso date]).insertionSort (· ≤ ·) }
          else doc) := by
  unfold add_snow_day
  exact dictGet?_map_value_keyfun s.siteMeta
    (fun key doc =>
      if globMatch key.1
          && (cfg.sites.map (fun p => p.2.outdoor_directory)).contains key.2 then
        if py.iso date ∈ doc.snow_days then doc
        else { doc with snow_days :=
                (doc.snow_days ++ [py.iso date]).insertionSort (· ≤ ·) }
      else doc) k

/-- C8 (amended): `add_snow_day` updates an existing SiteDocument whose
batch directory matches the `P-????-XX` glob and whose outdoor directory
belongs to a configured site: when the day is absent it is inserted and
the list re-sorted, and a second identical call is a no-op, so the day
ends up exactly once, in a sorted list that gained nothing else. -/
theorem c8_snow_day_dedup_sorted (py : PyOps) (cfg : Cfg) (date : String)
    (s : St) (k : String × String) (doc : SiteDoc)
    (hglob : globMatch k.1 = true)
    (hdir : (cfg.sites.map (fun p => p.2.outdoor_directory)).contains k.2 = true)
    (hdoc : dictGet? s.siteMeta k = some doc)
    (hfresh : py.iso date ∉ doc.snow_days) :
    ∃ doc1 doc2,
      dictGet? (add_snow_day py cfg date s).1.siteMeta k = some doc1 ∧
      doc1.snow_days = (doc.snow_days ++ [py.iso date]).insertionSort (· ≤ ·) ∧
      dictGet? (add_snow_day py cfg date (add_snow_day py cfg date s).1).1.siteMeta k
        = some doc2 ∧
      doc2 = doc1 ∧
      doc2.snow_days.count (py.iso date) = 1 ∧
      doc2.snow_days.Sorted (· ≤ ·) := by
  have hcond : (globMatch k.1
      && (cfg.sites.map (fun p => p.2.outdoor_directory)).contains k.2) = true := by
    rw [hglob, hdir]
    rfl
  have h1 : dictGet? (add_snow_day py cfg date s).1.siteMeta k
      = some { doc with snow_days :=
          (doc.snow_days ++ [py.iso date]).insertionSort (· ≤ ·) } := by
    rw [add_snow_day_lookup, hdoc]
    rw [Option.map_some']
    rw [if_pos hcond, if_neg hfresh]
  have hmem1 : py.iso date ∈ (doc.snow_days ++ [py.iso date]).insertionSort (· ≤ ·) := by
    rw [(List.perm_insertionSort (· ≤ ·) (doc.snow_days ++ [py.iso date])).mem_iff]
    exact List.mem_append.mpr (Or.inr (List.mem_singleton_self _))
  have h2 : dictGet? (add_snow_day py cfg date (add_snow_day py cfg date s).1).1.siteMeta k
      = some { doc with snow_days :=
          (doc.snow_days ++ [py.iso date]).insertionSort (· ≤ ·) } := by
    rw [add_snow_day_lookup, h1]
    rw [Option.map_some']
    rw [if_pos hcond, if_pos hmem1]
  refine ⟨_, _, h1, rfl, h2, rfl, ?_, ?_⟩
  · rw [(List.perm_insertionSort (· ≤ ·) (doc.snow_days ++ [py.iso date])).count_eq]
    rw [List.count_append]
    rw [List.count_eq_zero.mpr hfresh]
    simp
  · exact List.sorted_insertionSort (· ≤ ·) (doc.snow_days ++ [py.iso date])

/-- C8 witness: adding the day `2023-01-10` twice to the concrete state
whose batch directory is `P-0001-XX`. -/
theorem c8_snow_day_dedup_sorted_witness :
    ∃ doc1 doc2,
      dictGet? (add_snow_day evalPy cfgW "2023-01-10" sP).1.siteMeta
          ("P-0001", "Outdoor_SNL") = some doc1 ∧
      doc1.snow_days
        = ((mkSiteDoc scW).snow_days ++ [evalPy.iso "2023-01-10"]).insertionSort (· ≤ ·) ∧
      dictGet? (add_snow_day evalPy cfgW "2023-01-10"
          (add_snow_day evalPy cfgW "2023-01-10" sP).1).1.siteMeta
          ("P-0001", "Outdoor_SNL") = some doc2 ∧
      doc2 = doc1 ∧
      doc2.snow_days.count (evalPy.iso "2023-01-10") = 1 ∧
      doc2.snow_days.Sorted (· ≤ ·) :=
  c8_snow_day_dedup_sorted evalPy cfgW "2023-01-10" sP ("P-0001", "Outdoor_SNL")
    (mkSiteDoc scW) (by decide) (by decide) rfl (by decide)

/-- C8 counterexample: the claim's "applies to every group's SiteDocument
that currently exists on disk" fails on the code: a SiteDocument whose
batch directory `X1-234-XX` does not match the glob `P-????-XX` is left
untouched even though the day is absent from its list. -/
theorem c8_counterexample :
    evalPy.iso "2023-01-10" ∉ (mkSiteDoc scW).snow_days ∧
    dictGet? sX.siteMeta ("X1-234", "Outdoor_SNL") = some (mkSiteDoc scW) ∧
    (add_snow_day evalPy cfgW "2023-01-10" sX).1.siteMeta = sX.siteMeta := by
  refine ⟨by decide, rfl, rfl⟩

/-! ### Claim theorems: SiteDocuments are never overwritten (C9) -/

theorem dictGet?_mem {κ α : Type} [DecidableEq κ] {d : List (κ × α)} {k : κ} {v : α}
    (h : dictGet? d k = some v) : (k, v) ∈ d := by
  unfold dictGet? at h
  cases hf : d.find? (fun p => decide (p.1 = k)) with
  | none => rw [hf] at h; simp at h
  | some p =>
    rw [hf] at h
    have hp1 : p.1 = k := by simpa using List.find?_some hf
    have hp2 : p.2 = v := by simpa using h
    have hmem := List.mem_of_find?_eq_some hf
    rw [← hp1, ← hp2]
    exact hmem

theorem dictGet?_append_one_cases {κ α : Type} [DecidableEq κ]
    {d : List (κ × α)} {k0 k : κ} {v0 v : α}
    (h : dictGet? (d ++ [(k0, v0)]) k = some v) :
    dictGet? d k = some v ∨ (dictGet? d k = none ∧ k = k0 ∧ v = v0) := by
  unfold dictGet? at *
  rw [List.find?_append] at h
  cases hf : d.find? (fun p => decide (p.1 = k)) with
  | some p =>
    rw [hf] at h
    left
    exact h
  | none =>
    rw [hf] at h
    right
    by_cases hk : k0 = k
    · subst hk
      rw [List.find?_cons_of_pos _ (by simp)] at h
      refine ⟨rfl, rfl, ?_⟩
      have : v0 = v := by simpa using h
      exact this.symm
    · rw [List.find?_cons_of_neg _ (by simpa using hk)] at h
      simp at h

theorem ensure_siteMeta_cases {sc : SiteCfg} {key : String × String} {s : St}
    {k : String × String} {v : SiteDoc}
    (h : dictGet? (ensureSiteMetadata sc key s).siteMeta k = some v) :
    dictGet? s.siteMeta k = some v ∨
      (dictGet? s.siteMeta k = none ∧ v = mkSiteDoc sc) := by
  unfold ensureSiteMetadata at h
  by_cases hp : (dictGet? s.siteMeta key).isSome
  · rw [if_pos hp] at h
    left
    exact h
  · rw [if_neg hp] at h
    rcases dictGet?_append_one_cases h with h1 | ⟨h1, _, h3⟩
    · left; exact h1
    · right; exact ⟨h1, h3⟩

theorem syncStep_siteMeta_cases (py : PyOps) (cfg : Cfg) (cens : List CensorRow)
    (acc : St × Option Err) (p : String × List Row) {k : String × String} {v : SiteDoc}
    (h : dictGet? (syncStep py cfg cens acc p).1.siteMeta k = some v) :
    dictGet? acc.1.siteMeta k = some v ∨ ∃ q ∈ cfg.sites, v = mkSiteDoc q.2 := by
  unfold syncStep at h
  split at h
  · left; exact h
  · split at h
    · left; exact h
    · rename_i sc heq
      rcases ensure_siteMeta_cases h with h1 | ⟨h1, h2⟩
      · left; exact h1
      · right
        exact ⟨(batchSite p.2, sc), dictGet?_mem heq, h2⟩

theorem syncFold_siteMeta_cases (py : PyOps) (cfg : Cfg) (cens : List CensorRow) :
    ∀ (L : List (String × List Row)) (acc : St × Option Err)
      (k : String × String) (v : SiteDoc),
      dictGet? (L.foldl (syncStep py cfg cens) acc).1.siteMeta k = some v →
      dictGet? acc.1.siteMeta k = some v ∨ ∃ q ∈ cfg.sites, v = mkSiteDoc q.2 := by
  intro L
  induction L with
  | nil => intro acc k v h; left; exact h
  | cons q L ih =>
    intro acc k v h
    rw [List.foldl_cons] at h
    rcases ih _ k v h with h1 | h1
    · exact syncStep_siteMeta_cases py cfg cens acc q h1
    · right; exact h1

theorem addModuleToMetadataJson_siteMeta (py : PyOps) (pid area mtype : String)
    (key : String × String) (s : St) :
    (addModuleToMetadataJson py pid area mtype key s).siteMeta = s.siteMeta := by
  unfold addModuleToMetadataJson
  split
  · rfl
  · rfl

/-- C9: SiteDocuments already on disk are never overwritten — neither a
`sync_metadata` pass nor an `add_module` call changes them in any way —
and any SiteDocument present after either operation is either the
pre-existing one or a document freshly built from the static site
configuration with an empty snow-day list. -/
theorem c9_site_doc_persistence (py : PyOps) (cfg : Cfg) (s : St)
    (k : String × String) (pid psel area mtype sd site notes : String) :
    (∀ v, dictGet? s.siteMeta k = some v →
        dictGet? (sync_metadata py cfg s).1.siteMeta k = some v) ∧
    (∀ v, dictGet? s.siteMeta k = some v →
        dictGet? (add_module py cfg pid psel area mtype sd site notes s).1.siteMeta k
          = some v) ∧
    (∀ v, dictGet? (sync_metadata py cfg s).1.siteMeta k = some v →
        dictGet? s.siteMeta k = some v ∨
          ∃ q ∈ cfg.sites, v = mkSiteDoc q.2 ∧ v.snow_days = []) ∧
    (∀ v, dictGet? (add_module py cfg pid psel area mtype sd site notes s).1.siteMeta k
          = some v →
        dictGet? s.siteMeta k = some v ∨
          ∃ q ∈ cfg.sites, v = mkSiteDoc q.2 ∧ v.snow_days = []) := by
  refine ⟨?_, ?_, ?_, ?_⟩
  · intro v h
    exact syncFold_siteMeta_mono py cfg s.censoredCsv (batchesOf s.modulesCsv) (s, none) k h
  · intro v h
    unfold add_module
    split
    · exact h
    · split
      · exact h
      · apply ensure_siteMeta_mono
        rw [addModuleToMetadataJson_siteMeta]
        exact h
  · intro v h
    rcases syncFold_siteMeta_cases py cfg s.censoredCsv (batchesOf s.modulesCsv)
        (s, none) k v h with h1 | ⟨q, hq, h2⟩
    · left; exact h1
    · right
      refine ⟨q, hq, h2, ?_⟩
      rw [h2]
      rfl
  · intro v h
    unfold add_module at h
    split at h
    · left; exact h
    · rename_i sc heq
      split at h
      · left; exact h
      · rcases ensure_siteMeta_cases h with h1 | ⟨h1, h2⟩
        · left
          rw [addModuleToMetadataJson_siteMeta] at h1
          exact h1
        · right
          refine ⟨(site, sc), dictGet?_mem heq, h2, ?_⟩
          rw [h2]
          rfl

/-- C9 witness: on the concrete state `sP`, the existing SiteDocument
survives a synchronizer pass byte-identically. -/
theorem c9_site_doc_persistence_witness :
    dictGet? (sync_metadata evalPy cfgW sP).1.siteMeta ("P-0001", "Outdoor_SNL")
      = some (mkSiteDoc scW) :=
  (c9_site_doc_persistence evalPy cfgW sP ("P-0001", "Outdoor_SNL")
    "P-0002-01" "2" "1.0" "MHP" "2023-01-01" "SNL" "").1 (mkSiteDoc scW) rfl

/-- C1 witness: on the concrete state, a second synchronizer run returns
the first run's state unchanged. -/
theorem c1_resync_idempotent_witness :
    sync_metadata evalPy cfgW (sync_metadata evalPy cfgW sW).1
      = ((sync_metadata evalPy cfgW sW).1, none) :=
  (c1_resync_idempotent evalPy cfgW (⟨List.nodup_nil, List.nodup_nil⟩ : FsOk sW) rfl).1

/-- C10 witness: on the concrete state, the batch `P-0001` groups exactly
the roster's row. -/
theorem c10_sync_rebuilds_docs_witness :
    [rowW] = sW.modulesCsv.filter (fun r => decide (batchOf r.PACT_id = "P-0001")) :=
  (@c10_sync_rebuilds_docs evalPy cfgW sW (sync_metadata evalPy cfgW sW).1 rfl
    "P-0001" [rowW] scW (by decide) rfl).1

/-! ### Claim theorems: the two overlap predicates (C3) -/

/-- C3 (amended): on every roster row whose `Start_date` cell is nonempty,
the site-wide selection test used by the immediate `add_censor` call and
the one used by `sync_metadata` are the identical inclusive lifespan
overlap (`module.start ≤ event.end ∧ module.effectiveEnd ≥ event.start`,
the end defaulting to open-ended when absent), so a later resync
reproduces the same attachment decision for such rows.  (Rows with an
empty `Start_date` are the exception, see the counterexample.) -/
theorem c3_overlap_predicates_agree (py : PyOps) (r : Row) (cs ce : String)
    (h : r.Start_date ≠ "") :
    censorSelectsImmediate py r cs ce
      = censorSelectsSync py (r.Start_date, r.End_date) cs ce := by
  unfold censorSelectsImmediate censorSelectsSync
  rw [decide_eq_false h]
  simp

/-- C3 witness: the two predicates agree on the concrete row `rowW`. -/
theorem c3_overlap_predicates_agree_witness :
    censorSelectsImmediate evalPy rowW "2023-02-01" "2023-02-03"
      = censorSelectsSync evalPy (rowW.Start_date, rowW.End_date)
          "2023-02-01" "2023-02-03" :=
  c3_overlap_predicates_agree evalPy rowW "2023-02-01" "2023-02-03" (by decide)

/-- C3 counterexample: for a roster row with an empty `Start_date`, the
immediate site-wide exclude skips the module (its record keeps an empty
exclusion list) while a subsequent full resync of the very same log
attaches the event — the two predicates differ, hence the attachment
sets differ. -/
theorem c3_counterexample :
    censorSelectsImmediate evalPy rowE "2023-02-01" "2023-02-03" = false ∧
    censorSelectsSync evalPy (rowE.Start_date, rowE.End_date)
      "2023-02-01" "2023-02-03" = true ∧
    dictGet? (add_censor evalPy cfgW "site" "2023-02-01" "2023-02-03" "storm" sE).1.moduleMeta
        ("P-0002", "Outdoor_SNL") = some [mmE] ∧
    dictGet? (sync_metadata evalPy cfgW
        (add_censor evalPy cfgW "site" "2023-02-01" "2023-02-03" "storm" sE).1).1.moduleMeta
        ("P-0002", "Outdoor_SNL")
      = some [{ mmE with
          days_censored := [⟨"2023-02-01", "2023-02-03", "storm"⟩] }] := by
  refine ⟨by decide, by decide, rfl, rfl⟩

/-! ### Exactly-once attachment of a logged exclusion event (C4) -/

theorem attachFirst_find? (pid : String) (c : Censor) :
    ∀ doc : List ModuleMeta,
      (attachFirst pid c doc).find? (fun m => decide (m.module_id = pid))
        = (doc.find? (fun m => decide (m.module_id = pid))).map
            (fun m => if c ∈ m.days_censored then m
              else { m with days_censored := m.days_censored ++ [c] }) := by
  intro doc
  induction doc with
  | nil => rfl
  | cons m rest ih =>
    unfold attachFirst
    by_cases h2 : m.module_id = pid
    · rw [if_pos h2]
      have hpos : (fun m2 : ModuleMeta => decide (m2.module_id = pid))
          (if c ∈ m.days_censored then m
            else { m with days_censored := m.days_censored ++ [c] }) = true := by
        by_cases h3 : c ∈ m.days_censored
        · rw [if_pos h3]
          simpa using h2
        · rw [if_neg h3]
          simpa using h2
      rw [@List.find?_cons_of_pos ModuleMeta (fun m2 => decide (m2.module_id = pid)) _ rest hpos,
        List.find?_cons_of_pos _ (by simpa using h2)]
      rfl
    · rw [if_neg h2,
        List.find?_cons_of_neg _ (by simpa using h2),
        List.find?_cons_of_neg _ (by simpa using h2)]
      exact ih

theorem addCensorToMetadata_lookup (pid : String) (c : Censor)
    (key : String × String) (s : St) {doc : List ModuleMeta}
    (hdoc : dictGet? s.moduleMeta key = some doc) :
    dictGet? (addCensorToMetadata pid c key s).moduleMeta key
      = some (attachFirst pid c doc) := by
  unfold addCensorToMetadata
  rw [hdoc]
  exact dictGet?_insert_self _ _ _

theorem map_id_addCensorLast (mid : String) (c : Censor) (mods : List ModuleMeta) :
    (addCensorLast mid c mods).map (fun m => m.module_id)
      = mods.map (fun m => m.module_id) :=
  map_id_of_map_prj (map_prj_addCensorLast mid c mods)

theorem addCensorLast_find? {mods : List ModuleMeta} (mid : String) (c : Censor)
    (hnd : (mods.map (fun m => m.module_id)).Nodup) :
    (addCensorLast mid c mods).find? (fun m => decide (m.module_id = mid))
      = (mods.find? (fun m => decide (m.module_id = mid))).map
          (fun m => if c ∈ m.days_censored then m
            else { m with days_censored := m.days_censored ++ [c] }) := by
  induction mods with
  | nil => rfl
  | cons m rest ih =>
    have hnd1 : m.module_id ∉ rest.map (fun m2 => m2.module_id) :=
      (List.nodup_cons.mp (by simpa using hnd)).1
    have hnd2 : (rest.map (fun m2 => m2.module_id)).Nodup :=
      (List.nodup_cons.mp (by simpa using hnd)).2
    unfold addCensorLast
    by_cases h1 : rest.any (fun x => decide (x.module_id = mid))
    · have hm : ¬ (m.module_id = mid) := by
        intro hh
        rcases List.any_eq_true.mp h1 with ⟨x, hx, hx1⟩
        apply hnd1
        rw [hh, ← show x.module_id = mid from by simpa using hx1]
        exact List.mem_map.mpr ⟨x, hx, rfl⟩
      rw [if_pos h1,
        List.find?_cons_of_neg _ (by simpa using hm),
        List.find?_cons_of_neg _ (by simpa using hm)]
      exact ih hnd2
    · by_cases h2 : m.module_id = mid
      · rw [if_neg h1, if_pos h2]
        have hpos : (fun m2 : ModuleMeta => decide (m2.module_id = mid))
            (if c ∈ m.days_censored then m
              else { m with days_censored := m.days_censored ++ [c] }) = true := by
          by_cases h3 : c ∈ m.days_censored
          · rw [if_pos h3]; simpa using h2
          · rw [if_neg h3]; simpa using h2
        rw [@List.find?_cons_of_pos ModuleMeta (fun m2 => decide (m2.module_id = mid)) _ rest hpos,
          List.find?_cons_of_pos _ (by simpa using h2)]
        rfl
      · rw [if_neg h1, if_neg h2,
          List.find?_cons_of_neg _ (by simpa using h2),
          List.find?_cons_of_neg _ (by simpa using h2)]
        exact ih hnd2

theorem addCensorLast_find?_ne {mods : List ModuleMeta} (mid : String) (c : Censor)
    (pid : String) (hne : pid ≠ mid) :
    (addCensorLast mid c mods).find? (fun m => decide (m.module_id = pid))
      = mods.find? (fun m => decide (m.module_id = pid)) := by
  induction mods with
  | nil => rfl
  | cons m rest ih =>
    unfold addCensorLast
    by_cases h1 : rest.any (fun x => decide (x.module_id = mid))
    · rw [if_pos h1]
      by_cases hm : m.module_id = pid
      · rw [List.find?_cons_of_pos _ (by simpa using hm),
          List.find?_cons_of_pos _ (by simpa using hm)]
      · rw [List.find?_cons_of_neg _ (by simpa using hm),
          List.find?_cons_of_neg _ (by simpa using hm)]
        exact ih
    · by_cases h2 : m.module_id = mid
      · rw [if_neg h1, if_pos h2]
        have hneg : ¬ (m.module_id = pid) := by
          rw [h2]
          exact fun hh => hne hh.symm
        have hneg2 : (fun m2 : ModuleMeta => decide (m2.module_id = pid))
            (if c ∈ m.days_censored then m
              else { m with days_censored := m.days_censored ++ [c] }) = false := by
          by_cases h3 : c ∈ m.days_censored
          · rw [if_pos h3]; simpa using hneg
          · rw [if_neg h3]; simpa using hneg
        rw [@List.find?_cons_of_neg ModuleMeta (fun m2 => decide (m2.module_id = pid)) _ rest (by simp [hneg2]),
          List.find?_cons_of_neg _ (by simpa using hneg)]
      · rw [if_neg h1, if_neg h2]
        by_cases hm : m.module_id = pid
        · rw [List.find?_cons_of_pos _ (by simpa using hm),
            List.find?_cons_of_pos _ (by simpa using hm)]
        · rw [List.find?_cons_of_neg _ (by simpa using hm),
            List.find?_cons_of_neg _ (by simpa using hm)]
          exact ih

theorem addCensorLast_found_mono {mods : List ModuleMeta} (mid2 : String)
    (c2 : Censor) (pid : String) (c : Censor)
    (hnd : (mods.map (fun m => m.module_id)).Nodup)
    (h : ∃ m, mods.find? (fun m2 => decide (m2.module_id = pid)) = some m ∧
      c ∈ m.days_censored) :
    ∃ m, (addCensorLast mid2 c2 mods).find?
        (fun m2 => decide (m2.module_id = pid)) = some m ∧
      c ∈ m.days_censored := by
  obtain ⟨m, hm, hc⟩ := h
  by_cases heq : pid = mid2
  · subst heq
    rw [addCensorLast_find? pid c2 hnd, hm]
    refine ⟨_, rfl, ?_⟩
    show c ∈ (if c2 ∈ m.days_censored then m
      else { m with days_censored := m.days_censored ++ [c2] }).days_censored
    by_cases h3 : c2 ∈ m.days_censored
    · rw [if_pos h3]
      exact hc
    · rw [if_neg h3]
      exact List.mem_append.mpr (Or.inl hc)
  · rw [addCensorLast_find?_ne mid2 c2 pid heq]
    exact ⟨m, hm, hc⟩

theorem map_id_applyCensorRow (py : PyOps) (dates : List (String × (String × String)))
    (mods : List ModuleMeta) (crow : CensorRow) :
    (applyCensorRow py dates mods crow).map (fun m => m.module_id)
      = mods.map (fun m => m.module_id) :=
  map_id_of_map_prj (map_prj_applyCensorRow py dates mods crow)

theorem applyCensorRow_found_mono {py : PyOps} {dates : List (String × (String × String))}
    {mods : List ModuleMeta} (crow : CensorRow) (pid : String) (c : Censor)
    (hnd : (mods.map (fun m => m.module_id)).Nodup)
    (h : ∃ m, mods.find? (fun m2 => decide (m2.module_id = pid)) = some m ∧
      c ∈ m.days_censored) :
    ∃ m, (applyCensorRow py dates mods crow).find?
        (fun m2 => decide (m2.module_id = pid)) = some m ∧
      c ∈ m.days_censored := by
  unfold applyCensorRow
  by_cases hs : crow.pact_id ≠ "site"
  · rw [if_pos hs]
    by_cases h2 : mods.any (fun m => decide (m.module_id = crow.pact_id))
    · rw [if_pos h2]
      exact addCensorLast_found_mono _ _ _ _ hnd h
    · rw [if_neg h2]
      exact h
  · rw [if_neg hs]
    have aux : ∀ (ds : List (String × (String × String))) (ms : List ModuleMeta),
        (ms.map (fun m => m.module_id)).Nodup →
        (∃ m, ms.find? (fun m2 => decide (m2.module_id = pid)) = some m ∧
          c ∈ m.days_censored) →
        ∃ m, (ds.foldl (fun ms2 p =>
            if censorSelectsSync py p.2 crow.start crow.end_ then
              addCensorLast p.1 (mkCensor crow) ms2
            else ms2) ms).find? (fun m2 => decide (m2.module_id = pid)) = some m ∧
          c ∈ m.days_censored := by
      intro ds
      induction ds with
      | nil => intro ms _ h2; exact h2
      | cons p ds ih =>
        intro ms hnd2 h2
        rw [List.foldl_cons]
        by_cases hp : censorSelectsSync py p.2 crow.start crow.end_
        · rw [if_pos hp]
          refine ih _ ?_ (addCensorLast_found_mono _ _ _ _ hnd2 h2)
          rw [map_id_addCensorLast]
          exact hnd2
        · rw [if_neg hp]
          exact ih _ hnd2 h2
    exact aux dates mods hnd h

theorem applyCensorRow_establish {py : PyOps} {dates : List (String × (String × String))}
    {mods : List ModuleMeta} (crow : CensorRow)
    (hps : crow.pact_id ≠ "site")
    (hnd : (mods.map (fun m => m.module_id)).Nodup)
    (hpid : crow.pact_id ∈ mods.map (fun m => m.module_id)) :
    ∃ m, (applyCensorRow py dates mods crow).find?
        (fun m2 => decide (m2.module_id = crow.pact_id)) = some m ∧
      mkCensor crow ∈ m.days_censored := by
  unfold applyCensorRow
  rw [if_pos hps]
  have hany : mods.any (fun m => decide (m.module_id = crow.pact_id)) = true := by
    rcases List.mem_map.mp hpid with ⟨m, hm, hm1⟩
    exact List.any_eq_true.mpr ⟨m, hm, by simpa using hm1⟩
  rw [if_pos hany]
  rw [addCensorLast_find? _ _ hnd]
  have hsome : (mods.find? (fun m => decide (m.module_id = crow.pact_id))).isSome := by
    rw [List.find?_isSome]
    rcases List.any_eq_true.mp hany with ⟨m, hm, h1⟩
    exact ⟨m, hm, h1⟩
  rcases Option.isSome_iff_exists.mp hsome with ⟨m, hm⟩
  rw [hm]
  refine ⟨_, rfl, ?_⟩
  show mkCensor crow ∈
    (if (⟨crow.start, crow.end_, crow.comment⟩ : Censor) ∈ m.days_censored then m
      else { m with days_censored :=
        m.days_censored ++ [⟨crow.start, crow.end_, crow.comment⟩] }).days_censored
  by_cases h3 : (⟨crow.start, crow.end_, crow.comment⟩ : Censor) ∈ m.days_censored
  · rw [if_pos h3]
    exact h3
  · rw [if_neg h3]
    exact List.mem_append.mpr (Or.inr (List.mem_singleton_self _))

theorem syncBatchDoc_contains (py : PyOps) (cens : List CensorRow)
    (ind : List (String × List Censor)) (rows : List Row) (crow : CensorRow)
    (hmem : crow ∈ cens) (hps : crow.pact_id ≠ "site")
    (hpid : crow.pact_id ∈ rows.map (fun r => r.PACT_id))
    (hnd : (rows.map (fun r => r.PACT_id)).Nodup) :
    ∃ m, (syncBatchDoc py cens ind rows).find?
        (fun m2 => decide (m2.module_id = crow.pact_id)) = some m ∧
      mkCensor crow ∈ m.days_censored := by
  obtain ⟨l1, l2, rfl⟩ := List.append_of_mem hmem
  unfold syncBatchDoc
  rw [List.foldl_append, List.foldl_cons]
  have hidbase : ((l1.foldl (applyCensorRow py (moduleDates rows))
      (buildModules py ind rows)).map (fun m => m.module_id))
      = rows.map (fun r => r.PACT_id) := by
    rw [map_id_of_map_prj (foldl_prj_aux l1 _)]
    unfold buildModules
    rw [List.map_map]
    rfl
  have hnd2 : ((l1.foldl (applyCensorRow py (moduleDates rows))
      (buildModules py ind rows)).map (fun m => m.module_id)).Nodup := by
    rw [hidbase]
    exact hnd
  have hpid2 : crow.pact_id ∈ (l1.foldl (applyCensorRow py (moduleDates rows))
      (buildModules py ind rows)).map (fun m => m.module_id) := by
    rw [hidbase]
    exact hpid
  have hest := @applyCensorRow_establish py (moduleDates rows) _ crow hps hnd2 hpid2
  have hnd3 : ((applyCensorRow py (moduleDates rows)
      (l1.foldl (applyCensorRow py (moduleDates rows)) (buildModules py ind rows))
      crow).map (fun m => m.module_id)).Nodup := by
    rw [map_id_applyCensorRow]
    exact hnd2
  have aux : ∀ (cs : List CensorRow) (ms : List ModuleMeta),
      (ms.map (fun m => m.module_id)).Nodup →
      (∃ m, ms.find? (fun m2 => decide (m2.module_id = crow.pact_id)) = some m ∧
        mkCensor crow ∈ m.days_censored) →
      ∃ m, (cs.foldl (applyCensorRow py (moduleDates rows)) ms).find?
          (fun m2 => decide (m2.module_id = crow.pact_id)) = some m ∧
        mkCensor crow ∈ m.days_censored := by
    intro cs
    induction cs with
    | nil => intro ms _ h2; exact h2
    | cons crow2 cs ih =>
      intro ms hnd4 h2
      rw [List.foldl_cons]
      refine ih _ ?_ (applyCensorRow_found_mono crow2 crow.pact_id (mkCensor crow) hnd4 h2)
      rw [map_id_applyCensorRow]
      exact hnd4
  exact aux l2 _ hnd3 hest

theorem add_censor_nonsite_eq (py : PyOps) (cfg : Cfg)
    (pid start end_ comment : String) (s : St) {r : Row} {sc : SiteCfg}
    (hps : ¬ (pid = "site"))
    (hfind : s.modulesCsv.find? (fun r2 => decide (r2.PACT_id = pid)) = some r)
    (hsc : getSiteCfg? cfg (siteOf r) = some sc) :
    add_censor py cfg pid start end_ comment s
      = (addCensorToMetadata pid ⟨start, end_, comment⟩
          (batchOf pid, sc.outdoor_directory)
          { s with censoredCsv := s.censoredCsv ++ [⟨pid, start, end_, comment⟩] },
         none) := by
  unfold add_censor
  rw [if_neg hps]
  split
  · rename_i heq
    have heq2 : s.modulesCsv.find? (fun r2 => decide (r2.PACT_id = pid)) = none := heq
    rw [hfind] at heq2
    cases heq2
  · rename_i r2 heq
    have heq2 : s.modulesCsv.find? (fun r3 => decide (r3.PACT_id = pid)) = some r2 := heq
    have hr : r2 = r := by
      rw [hfind] at heq2
      exact (Option.some.inj heq2).symm
    subst hr
    split
    · rename_i hnone
      have hnone2 : getSiteCfg? cfg (siteOf r2) = none := hnone
      rw [hsc] at hnone2
      cases hnone2
    · rename_i sc2 hsc2
      have hsc3 : getSiteCfg? cfg (siteOf r2) = some sc2 := hsc2
      have := Option.some.inj (hsc3.symm.trans hsc)
      subst this
      rfl

/-! ### Indoor-period preservation (C2): invariant machinery -/

theorem dictInsert_lookup_cases {κ α : Type} [DecidableEq κ]
    {d : List (κ × α)} {k0 k : κ} {v0 : α} {w : α}
    (h : dictGet? (dictInsert d k0 v0) k = some w) :
    (k = k0 ∧ w = v0) ∨ dictGet? d k = some w := by
  by_cases hk : k = k0
  · subst hk
    rw [dictGet?_insert_self] at h
    exact Or.inl ⟨rfl, (Option.some.inj h).symm⟩
  · rw [dictGet?_insert_ne _ _ _ _ hk] at h
    exact Or.inr h

theorem map_prj_attachFirst (pid : String) (c : Censor) (doc : List ModuleMeta) :
    (attachFirst pid c doc).map prj = doc.map prj := by
  induction doc with
  | nil => rfl
  | cons m rest ih =>
    unfold attachFirst
    by_cases h2 : m.module_id = pid
    · rw [if_pos h2]
      by_cases h3 : c ∈ m.days_censored
      · rw [if_pos h3]
      · rw [if_neg h3]
        rfl
    · rw [if_neg h2]
      simp only [List.map_cons, ih]

theorem map_id_attachFirst (pid : String) (c : Censor) (doc : List ModuleMeta) :
    (attachFirst pid c doc).map (fun m => m.module_id)
      = doc.map (fun m => m.module_id) :=
  map_id_of_map_prj (map_prj_attachFirst pid c doc)

theorem indoorsFold_frame (doc : List ModuleMeta)
    (d0 : List (String × List Censor)) (k : String)
    (h : ∀ m ∈ doc, m.module_id ≠ k) :
    dictGet? (doc.foldl (fun d m => dictInsert d m.module_id m.days_indoors) d0) k
      = dictGet? d0 k := by
  induction doc generalizing d0 with
  | nil => rfl
  | cons m rest ih =>
    rw [List.foldl_cons,
      ih _ (fun m2 hm2 => h m2 (List.mem_cons_of_mem _ hm2)),
      dictGet?_insert_ne _ _ _ _ (fun hh => h m (List.mem_cons_self _ _) hh.symm)]

theorem indoorsFold_lookup_of_mem {m : ModuleMeta} :
    ∀ (doc : List ModuleMeta) (d0 : List (String × List Censor)),
      (doc.map (fun m2 => m2.module_id)).Nodup → m ∈ doc →
      dictGet? (doc.foldl (fun d m2 => dictInsert d m2.module_id m2.days_indoors) d0)
          m.module_id
        = some m.days_indoors := by
  intro doc
  induction doc with
  | nil => intro d0 _ hm; cases hm
  | cons m1 rest ih =>
    intro d0 hnd hm
    have hnd1 : m1.module_id ∉ rest.map (fun m2 => m2.module_id) :=
      (List.nodup_cons.mp (by simpa using hnd)).1
    have hnd2 : (rest.map (fun m2 => m2.module_id)).Nodup :=
      (List.nodup_cons.mp (by simpa using hnd)).2
    rw [List.foldl_cons]
    rcases List.mem_cons.mp hm with rfl | hm2
    · rw [indoorsFold_frame rest _ m.module_id
        (fun m2 hm2 hh => hnd1 (by rw [← hh]; exact List.mem_map.mpr ⟨m2, hm2, rfl⟩))]
      exact dictGet?_insert_self _ _ _
    · exact ih _ hnd2 hm2

theorem indoorsDict_lookup_of_mem {doc : List ModuleMeta}
    (hnd : (doc.map (fun m => m.module_id)).Nodup) {m : ModuleMeta} (hm : m ∈ doc) :
    dictGet? (indoorsDict doc) m.module_id = some m.days_indoors :=
  indoorsFold_lookup_of_mem doc [] hnd hm

theorem syncWrite_moduleMeta_ne2 (py : PyOps) (cens : List CensorRow)
    (sc : SiteCfg) (s : St) (p : String × List Row) (k : String × String)
    (h : k ≠ (p.1, sc.outdoor_directory)) :
    dictGet? (syncWrite py cens sc s p).moduleMeta k = dictGet? s.moduleMeta k := by
  unfold syncWrite
  rw [ensure_moduleMeta]
  exact dictGet?_insert_ne _ _ _ _ h

theorem syncWrite_modulesCsv (py : PyOps) (cens : List CensorRow)
    (sc : SiteCfg) (s : St) (p : String × List Row) :
    (syncWrite py cens sc s p).modulesCsv = s.modulesCsv := by
  unfold syncWrite
  rw [ensure_modulesCsv]

/-! ### The roster-backed invariant is preserved by every operation -/

theorem mem_of_map_eq {α β : Type} {f : α → β} {l1 l2 : List α}
    (h : l1.map f = l2.map f) {x : α} (hx : x ∈ l2) : ∃ y ∈ l1, f y = f x := by
  have hfx : f x ∈ l1.map f := by rw [h]; exact List.mem_map.mpr ⟨x, hx, rfl⟩
  rcases List.mem_map.mp hfx with ⟨y, hy, hyx⟩
  exact ⟨y, hy, hyx⟩

theorem not_mem_map_of_not_any {α β : Type} [DecidableEq β] {l : List α}
    {f : α → β} {b : β} (h : ¬ l.any (fun x => decide (f x = b)) = true) :
    b ∉ l.map f := by
  intro hb
  rcases List.mem_map.mp hb with ⟨x, hx, hfx⟩
  exact h (List.any_eq_true.mpr ⟨x, hx, decide_eq_true hfx⟩)

theorem nodup_append_one {α : Type} {l : List α} {a : α} (h : l.Nodup) (ha : a ∉ l) :
    (l ++ [a]).Nodup := by
  induction l with
  | nil => exact List.nodup_cons.mpr ⟨List.not_mem_nil a, List.nodup_nil⟩
  | cons x l ih =>
    rw [List.cons_append]
    have hx := List.nodup_cons.mp h
    refine List.nodup_cons.mpr ⟨?_, ih hx.2 (fun hmem => ha (List.mem_cons_of_mem x hmem))⟩
    intro hmem
    rcases List.mem_append.mp hmem with h1 | h1
    · exact hx.1 h1
    · have hxa : x = a := by simpa using h1
      have hax : a ∈ x :: l := by rw [hxa]; exact List.mem_cons_self a l
      exact ha hax

theorem filter_ids_nodup {rows : List Row}
    (h : (rows.map (fun r => r.PACT_id)).Nodup) (p : Row → Bool) :
    ((rows.filter p).map (fun r => r.PACT_id)).Nodup :=
  List.Nodup.sublist (List.Sublist.map _ (List.filter_sublist rows)) h

theorem covered_congr {s s' : St} (h1 : s'.modulesCsv = s.modulesCsv)
    (h2 : s'.moduleMeta = s.moduleMeta) (hc : Covered s) : Covered s' := by
  unfold Covered
  rw [h1, h2]
  exact hc

theorem covered_add_snow_day (py : PyOps) (cfg : Cfg) (date : String) {s : St}
    (hc : Covered s) : Covered (add_snow_day py cfg date s).1 := by
  unfold add_snow_day
  exact covered_congr rfl rfl hc

theorem covered_retire_module (py : PyOps) (pid ed : String) {s : St}
    (hc : Covered s) : Covered (retire_module py pid ed s).1 := by
  unfold retire_module
  by_cases h : s.modulesCsv.any (retireMask pid)
  · rw [if_pos h]
    obtain ⟨h1, h2⟩ := hc
    constructor
    · show ((s.modulesCsv.map fun r => if retireMask pid r then
          { r with Active := "N", End_date := py.mdy ed } else r).map
            (fun r => r.PACT_id)).Nodup
      rw [List.map_map]
      have hfun : ((fun r : Row => r.PACT_id) ∘ fun r =>
          if retireMask pid r then { r with Active := "N", End_date := py.mdy ed } else r)
          = fun r : Row => r.PACT_id := by
        funext r
        show (if retireMask pid r then
            { r with Active := "N", End_date := py.mdy ed } else r).PACT_id = r.PACT_id
        by_cases hm : retireMask pid r
        · rw [if_pos hm]
        · rw [if_neg hm]
      rw [hfun]
      exact h1
    · intro k doc hdoc
      have hd := h2 k doc hdoc
      refine ⟨hd.1, ?_⟩
      intro m hm
      rcases hd.2 m hm with ⟨r, hr, hr1, hr2⟩
      have hpr : (if retireMask pid r then
          { r with Active := "N", End_date := py.mdy ed } else r).PACT_id = r.PACT_id := by
        by_cases hm2 : retireMask pid r
        · rw [if_pos hm2]
        · rw [if_neg hm2]
      refine ⟨if retireMask pid r then
          { r with Active := "N", End_date := py.mdy ed } else r,
        List.mem_map.mpr ⟨r, hr, rfl⟩, ?_, ?_⟩
      · rw [hpr]; exact hr1
      · rw [hpr]; exact hr2
  · rw [if_neg h]
    exact hc

theorem covered_addCensorToMetadata (pid : String) (c : Censor)
    (key : String × String) {s : St} (hc : Covered s) :
    Covered (addCensorToMetadata pid c key s) := by
  unfold addCensorToMetadata
  cases hget : dictGet? s.moduleMeta key with
  | none => exact hc
  | some data =>
    obtain ⟨h1, h2⟩ := hc
    refine ⟨h1, ?_⟩
    intro k doc hdoc
    rcases dictInsert_lookup_cases hdoc with ⟨hk, hdv⟩ | hold
    · subst hk
      subst hdv
      have hd := h2 k data hget
      constructor
      · rw [map_id_attachFirst]; exact hd.1
      · intro m hm
        rcases mem_of_map_eq (map_id_attachFirst pid c data).symm hm with ⟨m0, hm0, hid⟩
        rcases hd.2 m0 hm0 with ⟨r, hr, hr1, hr2⟩
        exact ⟨r, hr, hr1.trans hid, hr2⟩
    · exact h2 k doc hold

theorem covered_censorFold (py : PyOps) (cfg : Cfg) (c : Censor) (cs ce : String) :
    ∀ (rows : List Row) (acc : St × Option Err), Covered acc.1 →
    Covered ((rows.foldl (fun acc r =>
      match acc.2 with
      | some e => (acc.1, some e)
      | none =>
        if censorSelectsImmediate py r cs ce then
          match getSiteCfg? cfg (siteOf r) with
          | none => (acc.1, some (.configError (siteOf r)))
          | some sc =>
            (addCensorToMetadata r.PACT_id c
              (batchOf r.PACT_id, sc.outdoor_directory) acc.1, none)
        else acc) acc).1) := by
  intro rows
  induction rows with
  | nil => intro acc h; exact h
  | cons r rows ih =>
    intro acc h
    rw [List.foldl_cons]
    apply ih
    cases acc.2 with
    | some e => exact h
    | none =>
      by_cases hsel : censorSelectsImmediate py r cs ce
      · rw [if_pos hsel]
        cases getSiteCfg? cfg (siteOf r) with
        | none => exact h
        | some sc => exact covered_addCensorToMetadata _ _ _ h
      · rw [if_neg hsel]
        exact h

theorem covered_add_censor (py : PyOps) (cfg : Cfg)
    (pid start end_ comment : String) {s : St} (hc : Covered s) :
    Covered (add_censor py cfg pid start end_ comment s).1 := by
  have hc1 : Covered { s with censoredCsv := s.censoredCsv ++ [⟨pid, start, end_, comment⟩] } :=
    covered_congr rfl rfl hc
  unfold add_censor
  by_cases hs : pid = "site"
  · rw [if_pos hs]
    exact covered_censorFold py cfg ⟨start, end_, comment⟩ start end_ _ _ hc1
  · rw [if_neg hs]
    split
    · exact hc1
    · split
      · exact hc1
      · exact covered_addCensorToMetadata _ _ _ hc1

theorem covered_addModuleToMetadataJson (py : PyOps) (pid area mtype : String)
    (key : String × String) {s : St} (hc : Covered s)
    (hrow : ∃ r ∈ s.modulesCsv, r.PACT_id = pid ∧ batchOf pid = key.1) :
    Covered (addModuleToMetadataJson py pid area mtype key s) := by
  unfold addModuleToMetadataJson
  by_cases hin : ((dictGet? s.moduleMeta key).getD []).any
      (fun m => decide (m.module_id = pid)) = true
  · rw [if_pos hin]
    exact hc
  · rw [if_neg hin]
    obtain ⟨h1, h2⟩ := hc
    have hod : ∀ m ∈ (dictGet? s.moduleMeta key).getD [],
        ∃ r ∈ s.modulesCsv, r.PACT_id = m.module_id ∧ batchOf r.PACT_id = key.1 := by
      cases hget : dictGet? s.moduleMeta key with
      | none => intro m hm; simp at hm
      | some data =>
        intro m hm
        simp only [Option.getD_some] at hm
        exact (h2 key data hget).2 m hm
    have hnd : (((dictGet? s.moduleMeta key).getD []).map
        (fun m => m.module_id)).Nodup := by
      cases hget : dictGet? s.moduleMeta key with
      | none => simp
      | some data => simpa using (h2 key data hget).1
    refine ⟨h1, ?_⟩
    intro k doc hdoc
    rcases dictInsert_lookup_cases hdoc with ⟨hk, hdv⟩ | hold
    · subst hk
      subst hdv
      constructor
      · rw [List.map_append]
        exact nodup_append_one hnd (not_mem_map_of_not_any hin)
      · intro m hm
        rcases List.mem_append.mp hm with hm1 | hm1
        · exact hod m hm1
        · have hme := List.mem_singleton.mp hm1
          rcases hrow with ⟨r, hr, hr1, hr2⟩
          refine ⟨r, hr, ?_, ?_⟩
          · rw [hme]; exact hr1
          · rw [hr1]; exact hr2
    · exact h2 k doc hold

theorem covered_add_module (py : PyOps) (cfg : Cfg)
    (pid psel area mtype sd site notes : String) {s : St} (hc : Covered s) :
    Covered (add_module py cfg pid psel area mtype sd site notes s).1 := by
  unfold add_module
  split
  · exact hc
  · rename_i sc heqsc
    by_cases hdup : s.modulesCsv.any (fun r => decide (r.PACT_id = pid)) = true
    · rw [if_pos hdup]
      exact hc
    · rw [if_neg hdup]
      apply covered_congr (ensure_modulesCsv _ _ _) (ensure_moduleMeta _ _ _)
      have hext : Covered { s with modulesCsv :=
          s.modulesCsv ++ [newRow py pid psel area mtype sd site notes] } := by
        obtain ⟨h1, h2⟩ := hc
        constructor
        · show ((s.modulesCsv ++ [newRow py pid psel area mtype sd site notes]).map
            (fun r => r.PACT_id)).Nodup
          rw [List.map_append]
          exact nodup_append_one h1 (not_mem_map_of_not_any hdup)
        · intro k doc hdoc
          have hd := h2 k doc hdoc
          refine ⟨hd.1, ?_⟩
          intro m hm
          rcases hd.2 m hm with ⟨r, hr, hr1, hr2⟩
          exact ⟨r, List.mem_append_left _ hr, hr1, hr2⟩
      refine covered_addModuleToMetadataJson py pid area mtype _ hext ?_
      refine ⟨newRow py pid psel area mtype sd site notes,
        List.mem_append_right _ (List.mem_cons_self _ _), rfl, rfl⟩

theorem covered_syncFold (py : PyOps) (cfg : Cfg) (cens : List CensorRow)
    (rows0 : List Row) :
    ∀ (L : List (String × List Row)) (acc : St × Option Err),
      acc.1.modulesCsv = rows0 →
      (∀ p ∈ L, p.2 = rows0.filter (fun r => decide (batchOf r.PACT_id = p.1))) →
      Covered acc.1 →
      Covered (L.foldl (syncStep py cfg cens) acc).1 := by
  intro L
  induction L with
  | nil => intro acc _ _ h; exact h
  | cons q L ih =>
    intro acc hcsv HL h
    rw [List.foldl_cons]
    refine ih (syncStep py cfg cens acc q) ?_
      (fun p hp => HL p (List.mem_cons_of_mem q hp)) ?_
    · rw [syncStep_modulesCsv]; exact hcsv
    · unfold syncStep
      cases acc.2 with
      | some e => exact h
      | none =>
        cases getSiteCfg? cfg (batchSite q.2) with
        | none => exact h
        | some sc =>
          apply covered_congr (ensure_modulesCsv _ _ _) (ensure_moduleMeta _ _ _)
          obtain ⟨h1, h2⟩ := h
          refine ⟨h1, ?_⟩
          intro k doc hdoc
          rcases dictInsert_lookup_cases hdoc with ⟨hk, hdv⟩ | hold
          · subst hk
            subst hdv
            have hq2 := HL q (List.mem_cons_self q L)
            have h1r : (rows0.map (fun r => r.PACT_id)).Nodup := by
              rw [← hcsv]; exact h1
            constructor
            · rw [map_id_syncBatchDoc, hq2]
              exact filter_ids_nodup h1r _
            · intro m hm
              have hid : m.module_id ∈ (syncBatchDoc py cens
                  (indoorsDict ((dictGet? acc.1.moduleMeta
                    (q.1, sc.outdoor_directory)).getD [])) q.2).map
                  (fun m2 => m2.module_id) :=
                List.mem_map.mpr ⟨m, hm, rfl⟩
              rw [map_id_syncBatchDoc, hq2] at hid
              rcases List.mem_map.mp hid with ⟨r, hr, hrid⟩
              have hrf := List.mem_filter.mp hr
              refine ⟨r, ?_, hrid, ?_⟩
              · rw [hcsv]; exact hrf.1
              · exact of_decide_eq_true hrf.2
          · exact h2 k doc hold

theorem covered_sync (py : PyOps) (cfg : Cfg) {s : St} (hc : Covered s) :
    Covered (sync_metadata py cfg s).1 := by
  unfold sync_metadata
  exact covered_syncFold py cfg s.censoredCsv s.modulesCsv (batchesOf s.modulesCsv)
    (s, none) rfl (fun p hp => batchesOf_rows_eq_filter hp) hc

theorem covered_runOp (py : PyOps) (cfg : Cfg) {s : St} (hc : Covered s)
    (op : Op) : Covered (runOp py cfg s op) := by
  cases op with
  | register pid psel area mtype sd site notes =>
    exact covered_add_module py cfg pid psel area mtype sd site notes hc
  | retire pid ed => exact covered_retire_module py pid ed hc
  | exclude pid st en cm => exact covered_add_censor py cfg pid st en cm hc
  | snowday d => exact covered_add_snow_day py cfg d hc
  | resync => exact covered_sync py cfg hc

theorem covered_runOps (py : PyOps) (cfg : Cfg) (ops : List Op) {s : St}
    (hc : Covered s) : Covered (runOps py cfg ops s) := by
  unfold runOps
  induction ops generalizing s with
  | nil => exact hc
  | cons op ops ih =>
    rw [List.foldl_cons]
    exact ih (covered_runOp py cfg hc op)

/-! ### One record's indoor list through the synchronizer loop -/

theorem syncStep_entry (py : PyOps) (cfg : Cfg) (cens : List CensorRow)
    (acc : St × Option Err) (q : String × List Row) (k : String × String)
    {doc' : List ModuleMeta} (hget : dictGet? acc.1.moduleMeta k = some doc') :
    dictGet? (syncStep py cfg cens acc q).1.moduleMeta k = some doc' ∨
    ∃ sc, getSiteCfg? cfg (batchSite q.2) = some sc ∧
      k = (q.1, sc.outdoor_directory) ∧
      dictGet? (syncStep py cfg cens acc q).1.moduleMeta k
        = some (syncBatchDoc py cens (indoorsDict doc') q.2) := by
  obtain ⟨a, e⟩ := acc
  have hget2 : dictGet? a.moduleMeta k = some doc' := hget
  cases e with
  | some err => exact Or.inl hget2
  | none =>
    cases hsc : getSiteCfg? cfg (batchSite q.2) with
    | none =>
      rw [syncStep_eq_none py cfg cens a q hsc]
      exact Or.inl hget2
    | some sc =>
      rw [syncStep_eq_some py cfg cens a q hsc]
      by_cases hk : k = (q.1, sc.outdoor_directory)
      · refine Or.inr ⟨sc, rfl, hk, ?_⟩
        subst hk
        have hgd : (dictGet? a.moduleMeta (q.1, sc.outdoor_directory)).getD [] = doc' := by
          rw [hget2]
          rfl
        have h1 := syncWrite_moduleMeta_self py cens sc a q
        rw [hgd] at h1
        exact h1
      · refine Or.inl ?_
        have h1 := syncWrite_moduleMeta_ne2 py cens sc a q k hk
        rw [hget2] at h1
        exact h1

theorem syncFold_entry (py : PyOps) (cfg : Cfg) (cens : List CensorRow)
    (rows0 : List Row) (hrost : (rows0.map (fun r => r.PACT_id)).Nodup)
    (k : String × String) (mid : String) (ind0 : List Censor)
    {r : Row} (hr : r ∈ rows0) (hrid : r.PACT_id = mid) (hk1 : batchOf mid = k.1) :
    ∀ (L : List (String × List Row)) (acc : St × Option Err),
      (∀ p ∈ L, p.2 = rows0.filter (fun r2 => decide (batchOf r2.PACT_id = p.1))) →
      (∃ doc' m', dictGet? acc.1.moduleMeta k = some doc' ∧ m' ∈ doc' ∧
        m'.module_id = mid ∧ m'.days_indoors = ind0 ∧
        (doc'.map (fun x => x.module_id)).Nodup) →
      ∃ doc' m',
        dictGet? (L.foldl (syncStep py cfg cens) acc).1.moduleMeta k = some doc' ∧
        m' ∈ doc' ∧ m'.module_id = mid ∧ m'.days_indoors = ind0 ∧
        (doc'.map (fun x => x.module_id)).Nodup := by
  intro L
  induction L with
  | nil => intro acc _ h; exact h
  | cons q L ih =>
    intro acc HL h
    rw [List.foldl_cons]
    refine ih _ (fun p hp => HL p (List.mem_cons_of_mem q hp)) ?_
    rcases h with ⟨doc', m', hget, hm', hid, hind, hnd⟩
    rcases syncStep_entry py cfg cens acc q k hget with h1 | ⟨sc, hsc, hk, h1⟩
    · exact ⟨doc', m', h1, hm', hid, hind, hnd⟩
    · have hq2 := HL q (List.mem_cons_self q L)
      have hrq : r ∈ q.2 := by
        rw [hq2]
        refine List.mem_filter.mpr ⟨hr, ?_⟩
        refine decide_eq_true ?_
        rw [hrid, hk1, hk]
      have hlook : dictGet? (indoorsDict doc') r.PACT_id = some ind0 := by
        rw [hrid, ← hid, ← hind]
        exact indoorsDict_lookup_of_mem hnd hm'
      have hmrB : ∃ y ∈ buildModules py (indoorsDict doc') q.2,
          y.module_id = mid ∧ y.days_indoors = ind0 := by
        unfold buildModules
        refine ⟨_, List.mem_map.mpr ⟨r, hrq, rfl⟩, ?_, ?_⟩
        · show r.PACT_id = mid
          exact hrid
        · show (dictGet? (indoorsDict doc') r.PACT_id).getD [] = ind0
          rw [hlook]
          rfl
      rcases hmrB with ⟨y, hyB, hyid, hyind⟩
      rcases mem_of_map_eq (map_prj_syncBatchDoc py cens (indoorsDict doc') q.2) hyB
        with ⟨m2, hm2, hprj⟩
      have hfst : m2.module_id = y.module_id := congrArg Prod.fst hprj
      have hsnd : m2.days_indoors = y.days_indoors := congrArg Prod.snd hprj
      refine ⟨syncBatchDoc py cens (indoorsDict doc') q.2, m2, h1, hm2,
        hfst.trans hyid, hsnd.trans hyind, ?_⟩
      rw [map_id_syncBatchDoc, hq2]
      exact filter_ids_nodup hrost _

theorem sync_entry (py : PyOps) (cfg : Cfg) {s : St} (hc : Covered s)
    {k : String × String} {doc : List ModuleMeta} {m : ModuleMeta}
    (hdoc : dictGet? s.moduleMeta k = some doc) (hm : m ∈ doc) :
    ∃ doc' m', dictGet? (sync_metadata py cfg s).1.moduleMeta k = some doc' ∧
      m' ∈ doc' ∧ m'.module_id = m.module_id ∧ m'.days_indoors = m.days_indoors := by
  obtain ⟨h1, h2⟩ := hc
  have hd := h2 k doc hdoc
  rcases hd.2 m hm with ⟨r, hr, hrid, hrb⟩
  have hk1 : batchOf m.module_id = k.1 := by rw [← hrid]; exact hrb
  unfold sync_metadata
  have hres := syncFold_entry py cfg s.censoredCsv s.modulesCsv h1 k m.module_id
    m.days_indoors hr hrid hk1 (batchesOf s.modulesCsv) (s, none)
    (fun p hp => batchesOf_rows_eq_filter hp)
    ⟨doc, m, hdoc, hm, rfl, rfl, hd.1⟩
  rcases hres with ⟨doc', m', hget, hm', hid, hind, _⟩
  exact ⟨doc', m', hget, hm', hid, hind⟩

/-! ### Claim C2: indoor-period preservation -/

theorem covered_sI : Covered sI := by
  constructor
  · decide
  · intro k doc hdoc
    have hmem : (k, doc) ∈ [((("P-0001", "Outdoor_SNL") : String × String), [mmI])] :=
      dictGet?_mem hdoc
    have hpair := List.mem_singleton.mp hmem
    have hk : k = ("P-0001", "Outdoor_SNL") := congrArg Prod.fst hpair
    have hdc : doc = [mmI] := congrArg Prod.snd hpair
    subst hdc
    refine ⟨by decide, ?_⟩
    intro m hm
    have hme := List.mem_singleton.mp hm
    subst hme
    refine ⟨rowW, List.mem_cons_self _ _, by decide, ?_⟩
    rw [hk]
    decide

/-- **C2** (corrected: the claim holds for roster-backed document states,
which every Mutation API operation preserves; an orphan record planted by
out-of-band edits is dropped). Start from any state whose documents are
covered by the roster (`Covered`): unique roster ids, and every document
record's module id carried by a roster row of the document's batch. After
any sequence of register / retire / exclude / snow-day / resync
operations (no `mark_indoor` involved — it is not in the alphabet), every
indoor-period list present in a metadata document survives a further
synchronizer pass bit-for-bit: the document written back at the same path
has a record with the same module id and the identical `days_indoors`
list. -/
theorem c2_indoor_preservation (py : PyOps) (cfg : Cfg) (ops : List Op) {s : St}
    (hcov : Covered s) {k : String × String} {doc : List ModuleMeta}
    {m : ModuleMeta}
    (hdoc : dictGet? (runOps py cfg ops s).moduleMeta k = some doc)
    (hm : m ∈ doc) :
    ∃ doc' m',
      dictGet? (sync_metadata py cfg (runOps py cfg ops s)).1.moduleMeta k
        = some doc' ∧
      m' ∈ doc' ∧ m'.module_id = m.module_id ∧ m'.days_indoors = m.days_indoors :=
  sync_entry py cfg (covered_runOps py cfg ops hcov) hdoc hm

/-- C2 witness: a registered module with a recorded indoor period, run
through a resync and then the audited pass — the list survives. -/
theorem c2_indoor_preservation_witness :
    Covered sI ∧ mmI.days_indoors ≠ [] ∧
    ∃ doc' m',
      dictGet? (sync_metadata evalPy cfgW
          (runOps evalPy cfgW [Op.resync] sI)).1.moduleMeta
          ("P-0001", "Outdoor_SNL") = some doc' ∧
      m' ∈ doc' ∧ m'.module_id = mmI.module_id ∧
      m'.days_indoors = mmI.days_indoors :=
  ⟨covered_sI, by decide,
    c2_indoor_preservation evalPy cfgW [Op.resync] covered_sI
      (by decide : dictGet? (runOps evalPy cfgW [Op.resync] sI).moduleMeta
        ("P-0001", "Outdoor_SNL") = some [mmI])
      (by decide : mmI ∈ [mmI])⟩

/-- C2 counterexample to the unconditional reading: a document record
whose module id has no roster row (plantable only by direct edits, but
present on disk before the pass) is dropped by `sync_metadata` together
with its nonempty indoor-period list — the rebuilt document lists only
the rostered module. -/
theorem c2_counterexample :
    mmO ∈ [mmW, mmO] ∧
    dictGet? sO.moduleMeta ("P-0001", "Outdoor_SNL") = some [mmW, mmO] ∧
    mmO.days_indoors = [⟨"2023-03-01", "2023-03-05", "maintenance"⟩] ∧
    mmO.module_id = "P-0001-99" ∧
    (sync_metadata evalPy cfgW sO).2 = none ∧
    ((dictGet? (sync_metadata evalPy cfgW sO).1.moduleMeta
        ("P-0001", "Outdoor_SNL")).getD []).map (fun m2 => m2.module_id)
      = ["P-0001-01"] := by
  refine ⟨by decide, rfl, rfl, rfl, rfl, rfl⟩

/-! ### Site-wide exclusion (C4): loop lemmas -/

theorem add_censor_site_eq (py : PyOps) (cfg : Cfg)
    (start end_ comment : String) (s : St) :
    add_censor py cfg "site" start end_ comment s
      = ({ s with censoredCsv :=
            s.censoredCsv ++ [(⟨"site", start, end_, comment⟩ : CensorRow)] }).modulesCsv.foldl
          (censorStep py cfg ⟨start, end_, comment⟩ start end_)
          ({ s with censoredCsv :=
            s.censoredCsv ++ [(⟨"site", start, end_, comment⟩ : CensorRow)] }, none) := rfl

theorem censorFold_none (py : PyOps) (cfg : Cfg) (c : Censor) (cs ce : String) :
    ∀ (rows : List Row) (st : St),
      (∀ r ∈ rows, (getSiteCfg? cfg (siteOf r)).isSome) →
      ∃ st', rows.foldl (censorStep py cfg c cs ce) (st, none) = (st', none) := by
  intro rows
  induction rows with
  | nil => intro st _; exact ⟨st, rfl⟩
  | cons r rows ih =>
    intro st hall
    rw [List.foldl_cons]
    show ∃ st', rows.foldl (censorStep py cfg c cs ce)
      (censorStep py cfg c cs ce (st, none) r) = (st', none)
    unfold censorStep
    by_cases hsel : censorSelectsImmediate py r cs ce
    · rw [if_pos hsel]
      cases hsc : getSiteCfg? cfg (siteOf r) with
      | none =>
        have := hall r (List.mem_cons_self r rows)
        rw [hsc] at this
        cases this
      | some sc =>
        exact ih _ (fun r2 h2 => hall r2 (List.mem_cons_of_mem r h2))
    · rw [if_neg hsel]
      exact ih _ (fun r2 h2 => hall r2 (List.mem_cons_of_mem r h2))

theorem censorStep_modulesCsv (py : PyOps) (cfg : Cfg) (c : Censor) (cs ce : String)
    (acc : St × Option Err) (r : Row) :
    (censorStep py cfg c cs ce acc r).1.modulesCsv = acc.1.modulesCsv := by
  unfold censorStep
  cases acc.2 with
  | some e => rfl
  | none =>
    by_cases hsel : censorSelectsImmediate py r cs ce
    · rw [if_pos hsel]
      cases getSiteCfg? cfg (siteOf r) with
      | none => rfl
      | some sc => exact addCensorToMetadata_modulesCsv _ _ _ _
    · rw [if_neg hsel]

theorem censorFold_modulesCsv (py : PyOps) (cfg : Cfg) (c : Censor) (cs ce : String)
    (rows : List Row) (acc : St × Option Err) :
    (rows.foldl (censorStep py cfg c cs ce) acc).1.modulesCsv = acc.1.modulesCsv := by
  induction rows generalizing acc with
  | nil => rfl
  | cons r rows ih =>
    rw [List.foldl_cons, ih, censorStep_modulesCsv]

theorem attachFirst_find?_ne (pid : String) (c : Censor) (rid : String)
    (hne : pid ≠ rid) (doc : List ModuleMeta) :
    (attachFirst pid c doc).find? (fun m => decide (m.module_id = rid))
      = doc.find? (fun m => decide (m.module_id = rid)) := by
  induction doc with
  | nil => rfl
  | cons m rest ih =>
    unfold attachFirst
    by_cases h1 : m.module_id = pid
    · rw [if_pos h1]
      have hmr : ¬ (m.module_id = rid) := by
        rw [h1]
        exact hne
      have hmr2 : (fun m2 : ModuleMeta => decide (m2.module_id = rid))
          (if c ∈ m.days_censored then m
            else { m with days_censored := m.days_censored ++ [c] }) = false := by
        by_cases h3 : c ∈ m.days_censored
        · rw [if_pos h3]; simpa using hmr
        · rw [if_neg h3]; simpa using hmr
      rw [@List.find?_cons_of_neg ModuleMeta (fun m2 => decide (m2.module_id = rid))
          _ rest (by simp [hmr2]),
        List.find?_cons_of_neg _ (by simpa using hmr)]
    · rw [if_neg h1]
      by_cases hm : m.module_id = rid
      · rw [List.find?_cons_of_pos _ (by simpa using hm),
          List.find?_cons_of_pos _ (by simpa using hm)]
      · rw [List.find?_cons_of_neg _ (by simpa using hm),
          List.find?_cons_of_neg _ (by simpa using hm)]
        exact ih

theorem addCensorToMetadata_find?_frame (pid : String) (c : Censor)
    (key' key : String × String) (st : St) (rid : String) {mt : ModuleMeta}
    (hne : pid ≠ rid)
    (h : ∃ d, dictGet? st.moduleMeta key = some d ∧
      d.find? (fun m => decide (m.module_id = rid)) = some mt) :
    ∃ d, dictGet? (addCensorToMetadata pid c key' st).moduleMeta key = some d ∧
      d.find? (fun m => decide (m.module_id = rid)) = some mt := by
  rcases h with ⟨d, hget, hfind⟩
  unfold addCensorToMetadata
  cases hget' : dictGet? st.moduleMeta key' with
  | none => exact ⟨d, hget, hfind⟩
  | some data =>
    by_cases hk : key = key'
    · subst hk
      have hdd : data = d := by
        rw [hget'] at hget
        exact Option.some.inj hget
      subst hdd
      refine ⟨attachFirst pid c data, dictGet?_insert_self _ _ _, ?_⟩
      rw [attachFirst_find?_ne pid c rid hne]
      exact hfind
    · refine ⟨d, ?_, hfind⟩
      rw [dictGet?_insert_ne _ _ _ _ hk]
      exact hget

theorem censorFold_find?_frame (py : PyOps) (cfg : Cfg) (c : Censor) (cs ce : String)
    (rid : String) (key : String × String) {mt : ModuleMeta} :
    ∀ (rows : List Row) (acc : St × Option Err),
      (∀ r ∈ rows, r.PACT_id ≠ rid) →
      (∃ d, dictGet? acc.1.moduleMeta key = some d ∧
        d.find? (fun m => decide (m.module_id = rid)) = some mt) →
      ∃ d, dictGet? (rows.foldl (censorStep py cfg c cs ce) acc).1.moduleMeta key
          = some d ∧
        d.find? (fun m => decide (m.module_id = rid)) = some mt := by
  intro rows
  induction rows with
  | nil => intro acc _ h; exact h
  | cons r rows ih =>
    intro acc hall h
    rw [List.foldl_cons]
    refine ih _ (fun r2 h2 => hall r2 (List.mem_cons_of_mem r h2)) ?_
    unfold censorStep
    cases acc.2 with
    | some e => exact h
    | none =>
      by_cases hsel : censorSelectsImmediate py r cs ce
      · rw [if_pos hsel]
        cases getSiteCfg? cfg (siteOf r) with
        | none => exact h
        | some sc =>
          exact addCensorToMetadata_find?_frame r.PACT_id c _ key _ rid
            (hall r (List.mem_cons_self r rows)) h
      · rw [if_neg hsel]
        exact h

theorem nodup_split_sides {l1 l2 : List Row} {r : Row}
    (h : (((l1 ++ r :: l2).map (fun x => x.PACT_id))).Nodup) :
    (∀ r2 ∈ l1, r2.PACT_id ≠ r.PACT_id) ∧ (∀ r2 ∈ l2, r2.PACT_id ≠ r.PACT_id) := by
  rw [List.map_append, List.map_cons] at h
  rcases List.nodup_append.mp h with ⟨h1, h2, hdisj⟩
  constructor
  · intro r2 hr2 heq
    have hmem : r2.PACT_id ∈ l1.map (fun x => x.PACT_id) :=
      List.mem_map.mpr ⟨r2, hr2, rfl⟩
    have hnot := hdisj hmem
    rw [heq] at hnot
    exact hnot (List.mem_cons_self _ _)
  · intro r2 hr2 heq
    have hhead := (List.nodup_cons.mp h2).1
    apply hhead
    rw [← heq]
    exact List.mem_map.mpr ⟨r2, hr2, rfl⟩

theorem find?_row_of_mem_nodup {rows : List Row}
    (hnd : (rows.map (fun r2 => r2.PACT_id)).Nodup) {r : Row} (hr : r ∈ rows) :
    rows.find? (fun r2 => decide (r2.PACT_id = r.PACT_id)) = some r := by
  induction rows with
  | nil => cases hr
  | cons x rows ih =>
    have hnd2 : (x.PACT_id :: rows.map (fun r2 => r2.PACT_id)).Nodup := by
      simpa using hnd
    have hx := List.nodup_cons.mp hnd2
    rcases List.mem_cons.mp hr with heq | hr2
    · subst heq
      rw [List.find?_cons_of_pos _ (by simp)]
    · by_cases hxp : x.PACT_id = r.PACT_id
      · exfalso
        apply hx.1
        rw [hxp]
        exact List.mem_map.mpr ⟨r, hr2, rfl⟩
      · rw [List.find?_cons_of_neg _ (by simpa using hxp)]
        exact ih hx.2 hr2

theorem moduleDatesFold_frame (rows : List Row)
    (d0 : List (String × (String × String))) (k : String)
    (h : ∀ r ∈ rows, r.PACT_id ≠ k) :
    dictGet? (rows.foldl (fun d r =>
      dictInsert d r.PACT_id (r.Start_date, r.End_date)) d0) k = dictGet? d0 k := by
  induction rows generalizing d0 with
  | nil => rfl
  | cons r rest ih =>
    rw [List.foldl_cons,
      ih _ (fun r2 hr2 => h r2 (List.mem_cons_of_mem _ hr2)),
      dictGet?_insert_ne _ _ _ _ (fun hh => h r (List.mem_cons_self _ _) hh.symm)]

theorem moduleDatesFold_lookup {r : Row} :
    ∀ (rows : List Row) (d0 : List (String × (String × String))),
      (rows.map (fun r2 => r2.PACT_id)).Nodup → r ∈ rows →
      dictGet? (rows.foldl (fun d r2 =>
          dictInsert d r2.PACT_id (r2.Start_date, r2.End_date)) d0) r.PACT_id
        = some (r.Start_date, r.End_date) := by
  intro rows
  induction rows with
  | nil => intro d0 _ hm; cases hm
  | cons r1 rest ih =>
    intro d0 hnd hm
    have hnd0 : (r1.PACT_id :: rest.map (fun r2 => r2.PACT_id)).Nodup := by
      simpa using hnd
    have hnd1 : r1.PACT_id ∉ rest.map (fun r2 => r2.PACT_id) :=
      (List.nodup_cons.mp hnd0).1
    have hnd2 : (rest.map (fun r2 => r2.PACT_id)).Nodup :=
      (List.nodup_cons.mp hnd0).2
    rw [List.foldl_cons]
    rcases List.mem_cons.mp hm with heq | hm2
    · subst heq
      rw [moduleDatesFold_frame rest _ r.PACT_id
        (fun r2 hr2 hh => hnd1 (by rw [← hh]; exact List.mem_map.mpr ⟨r2, hr2, rfl⟩))]
      exact dictGet?_insert_self _ _ _
    · exact ih _ hnd2 hm2

theorem moduleDates_lookup {rows : List Row}
    (hnd : (rows.map (fun r2 => r2.PACT_id)).Nodup) {r : Row} (hr : r ∈ rows) :
    dictGet? (moduleDates rows) r.PACT_id = some (r.Start_date, r.End_date) :=
  moduleDatesFold_lookup rows [] hnd hr

theorem censorSelectsSync_of_immediate {py : PyOps} {r : Row} {cs ce : String}
    (h : censorSelectsImmediate py r cs ce = true) :
    censorSelectsSync py (r.Start_date, r.End_date) cs ce = true := by
  unfold censorSelectsImmediate at h
  unfold censorSelectsSync
  rcases (Bool.and_eq_true _ _).mp h with ⟨h1, h2⟩
  rcases (Bool.and_eq_true _ _).mp h1 with ⟨_, h12⟩
  exact (Bool.and_eq_true _ _).mpr ⟨(Bool.or_eq_true _ _).mpr (Or.inr h12), h2⟩

theorem addCensorLast_establish {mods : List ModuleMeta} (mid : String) (c : Censor)
    (hnd : (mods.map (fun m => m.module_id)).Nodup)
    (hmid : mid ∈ mods.map (fun m => m.module_id)) :
    ∃ m, (addCensorLast mid c mods).find?
        (fun m2 => decide (m2.module_id = mid)) = some m ∧
      c ∈ m.days_censored := by
  rw [addCensorLast_find? _ _ hnd]
  have hsome : (mods.find? (fun m => decide (m.module_id = mid))).isSome := by
    rw [List.find?_isSome]
    rcases List.mem_map.mp hmid with ⟨m, hm, hm1⟩
    exact ⟨m, hm, by simpa using hm1⟩
  rcases Option.isSome_iff_exists.mp hsome with ⟨m, hm⟩
  rw [hm, Option.map_some']
  refine ⟨_, rfl, ?_⟩
  show c ∈ (if c ∈ m.days_censored then m
    else { m with days_censored := m.days_censored ++ [c] }).days_censored
  by_cases h3 : c ∈ m.days_censored
  · rw [if_pos h3]
    exact h3
  · rw [if_neg h3]
    exact List.mem_append.mpr (Or.inr (List.mem_singleton_self _))

theorem siteFold_map_id (py : PyOps) (c0 : Censor) (cs ce : String) :
    ∀ (ds : List (String × (String × String))) (ms : List ModuleMeta),
      ((ds.foldl (fun ms2 p =>
          if censorSelectsSync py p.2 cs ce then addCensorLast p.1 c0 ms2
          else ms2) ms).map (fun m => m.module_id))
        = ms.map (fun m => m.module_id) := by
  intro ds
  induction ds with
  | nil => intro ms; rfl
  | cons p ds ih =>
    intro ms
    rw [List.foldl_cons]
    by_cases hp : censorSelectsSync py p.2 cs ce
    · rw [if_pos hp, ih, map_id_addCensorLast]
    · rw [if_neg hp, ih]

theorem siteFold_found_mono (py : PyOps) (c0 : Censor) (cs ce : String)
    (pid : String) (c : Censor) :
    ∀ (ds : List (String × (String × String))) (ms : List ModuleMeta),
      (ms.map (fun m => m.module_id)).Nodup →
      (∃ m, ms.find? (fun m2 => decide (m2.module_id = pid)) = some m ∧
        c ∈ m.days_censored) →
      ∃ m, (ds.foldl (fun ms2 p =>
          if censorSelectsSync py p.2 cs ce then addCensorLast p.1 c0 ms2
          else ms2) ms).find? (fun m2 => decide (m2.module_id = pid)) = some m ∧
        c ∈ m.days_censored := by
  intro ds
  induction ds with
  | nil => intro ms _ h; exact h
  | cons p ds ih =>
    intro ms hnd h
    rw [List.foldl_cons]
    by_cases hp : censorSelectsSync py p.2 cs ce
    · rw [if_pos hp]
      refine ih _ ?_ (addCensorLast_found_mono _ _ _ _ hnd h)
      rw [map_id_addCensorLast]
      exact hnd
    · rw [if_neg hp]
      exact ih _ hnd h

theorem applyCensorRow_establish_site {py : PyOps}
    {dates : List (String × (String × String))} {mods : List ModuleMeta}
    (crow : CensorRow) (mid : String)
    (hps : crow.pact_id = "site")
    (hnd : (mods.map (fun m => m.module_id)).Nodup)
    (hmid : mid ∈ mods.map (fun m => m.module_id))
    {dt : String × String}
    (hdt : dictGet? dates mid = some dt)
    (hsel : censorSelectsSync py dt crow.start crow.end_ = true) :
    ∃ m, (applyCensorRow py dates mods crow).find?
        (fun m2 => decide (m2.module_id = mid)) = some m ∧
      mkCensor crow ∈ m.days_censored := by
  unfold applyCensorRow
  rw [if_neg (by simp [hps])]
  obtain ⟨d1, d2, hdsplit⟩ := List.append_of_mem (dictGet?_mem hdt)
  rw [hdsplit, List.foldl_append, List.foldl_cons]
  have hid1 := siteFold_map_id py ⟨crow.start, crow.end_, crow.comment⟩
    crow.start crow.end_ d1 mods
  have hnd1 : ((d1.foldl (fun ms2 p =>
      if censorSelectsSync py p.2 crow.start crow.end_ then
        addCensorLast p.1 ⟨crow.start, crow.end_, crow.comment⟩ ms2
      else ms2) mods).map (fun m => m.module_id)).Nodup := by
    rw [hid1]
    exact hnd
  have hmid1 : mid ∈ (d1.foldl (fun ms2 p =>
      if censorSelectsSync py p.2 crow.start crow.end_ then
        addCensorLast p.1 ⟨crow.start, crow.end_, crow.comment⟩ ms2
      else ms2) mods).map (fun m => m.module_id) := by
    rw [hid1]
    exact hmid
  rw [if_pos hsel]
  refine siteFold_found_mono py ⟨crow.start, crow.end_, crow.comment⟩
    crow.start crow.end_ mid (mkCensor crow) d2 _ ?_ ?_
  · rw [map_id_addCensorLast]
    exact hnd1
  · exact addCensorLast_establish mid (mkCensor crow) hnd1 hmid1

theorem censFold_found_mono (py : PyOps) (dates : List (String × (String × String)))
    (pid : String) (c : Censor) :
    ∀ (cs : List CensorRow) (ms : List ModuleMeta),
      (ms.map (fun m => m.module_id)).Nodup →
      (∃ m, ms.find? (fun m2 => decide (m2.module_id = pid)) = some m ∧
        c ∈ m.days_censored) →
      ∃ m, (cs.foldl (applyCensorRow py dates) ms).find?
          (fun m2 => decide (m2.module_id = pid)) = some m ∧
        c ∈ m.days_censored := by
  intro cs
  induction cs with
  | nil => intro ms _ h; exact h
  | cons crow2 cs ih =>
    intro ms hnd h
    rw [List.foldl_cons]
    refine ih _ ?_ (applyCensorRow_found_mono crow2 pid c hnd h)
    rw [map_id_applyCensorRow]
    exact hnd

theorem syncBatchDoc_contains_site (py : PyOps) (cens : List CensorRow)
    (ind : List (String × List Censor)) (rows : List Row) (crow : CensorRow)
    (mid : String) {r : Row}
    (hmem : crow ∈ cens) (hps : crow.pact_id = "site")
    (hr : r ∈ rows) (hrid : r.PACT_id = mid)
    (hnd : (rows.map (fun r2 => r2.PACT_id)).Nodup)
    (hsel : censorSelectsSync py (r.Start_date, r.End_date) crow.start crow.end_
      = true) :
    ∃ m, (syncBatchDoc py cens ind rows).find?
        (fun m2 => decide (m2.module_id = mid)) = some m ∧
      mkCensor crow ∈ m.days_censored := by
  obtain ⟨l1, l2, rfl⟩ := List.append_of_mem hmem
  unfold syncBatchDoc
  rw [List.foldl_append, List.foldl_cons]
  have hidbase : ((l1.foldl (applyCensorRow py (moduleDates rows))
      (buildModules py ind rows)).map (fun m => m.module_id))
      = rows.map (fun r2 => r2.PACT_id) := by
    rw [map_id_of_map_prj (foldl_prj_aux l1 _)]
    unfold buildModules
    rw [List.map_map]
    rfl
  have hnd2 : ((l1.foldl (applyCensorRow py (moduleDates rows))
      (buildModules py ind rows)).map (fun m => m.module_id)).Nodup := by
    rw [hidbase]
    exact hnd
  have hmid2 : mid ∈ (l1.foldl (applyCensorRow py (moduleDates rows))
      (buildModules py ind rows)).map (fun m => m.module_id) := by
    rw [hidbase, ← hrid]
    exact List.mem_map.mpr ⟨r, hr, rfl⟩
  have hdt : dictGet? (moduleDates rows) mid = some (r.Start_date, r.End_date) := by
    rw [← hrid]
    exact moduleDates_lookup hnd hr
  have hest := @applyCensorRow_establish_site py (moduleDates rows) _ crow mid
    hps hnd2 hmid2 _ hdt hsel
  have hnd3 : ((applyCensorRow py (moduleDates rows)
      (l1.foldl (applyCensorRow py (moduleDates rows)) (buildModules py ind rows))
      crow).map (fun m => m.module_id)).Nodup := by
    rw [map_id_applyCensorRow]
    exact hnd2
  exact censFold_found_mono py (moduleDates rows) mid (mkCensor crow) l2 _ hnd3 hest

theorem add_censor_site_immediate (py : PyOps) (cfg : Cfg)
    (start end_ comment : String) (s : St) {r : Row} {sc : SiteCfg}
    {doc : List ModuleMeta} {mt0 : ModuleMeta}
    (hndIds : (s.modulesCsv.map (fun r2 => r2.PACT_id)).Nodup)
    (hr : r ∈ s.modulesCsv)
    (hsel : censorSelectsImmediate py r start end_ = true)
    (hsc : getSiteCfg? cfg (siteOf r) = some sc)
    (hall : ∀ r2 ∈ s.modulesCsv, (getSiteCfg? cfg (siteOf r2)).isSome)
    (hdoc : dictGet? s.moduleMeta (batchOf r.PACT_id, sc.outdoor_directory)
      = some doc)
    (hfound : doc.find? (fun m => decide (m.module_id = r.PACT_id)) = some mt0) :
    (add_censor py cfg "site" start end_ comment s).2 = none ∧
    ∃ d, dictGet? (add_censor py cfg "site" start end_ comment s).1.moduleMeta
        (batchOf r.PACT_id, sc.outdoor_directory) = some d ∧
      d.find? (fun m => decide (m.module_id = r.PACT_id))
        = some (if (⟨start, end_, comment⟩ : Censor) ∈ mt0.days_censored then mt0
            else { mt0 with days_censored :=
              mt0.days_censored ++ [⟨start, end_, comment⟩] }) := by
  obtain ⟨l1, l2, hsplit⟩ := List.append_of_mem hr
  have hndIds2 : (((l1 ++ r :: l2).map (fun x => x.PACT_id))).Nodup := by
    rw [← hsplit]
    exact hndIds
  have hsides := nodup_split_sides hndIds2
  have hallmem : ∀ r2 ∈ l1 ++ r :: l2, (getSiteCfg? cfg (siteOf r2)).isSome := by
    intro r2 h2
    exact hall r2 (by rw [hsplit]; exact h2)
  have hs1 : ({ s with censoredCsv :=
      s.censoredCsv ++ [(⟨"site", start, end_, comment⟩ : CensorRow)] } : St).modulesCsv
      = l1 ++ r :: l2 := hsplit
  rw [add_censor_site_eq, hs1, List.foldl_append, List.foldl_cons]
  rcases censorFold_none py cfg ⟨start, end_, comment⟩ start end_ l1
      { s with modulesCsv := l1 ++ r :: l2, censoredCsv :=
          s.censoredCsv ++ [(⟨"site", start, end_, comment⟩ : CensorRow)] }
      (fun r2 h2 => hallmem r2 (List.mem_append_left _ h2)) with ⟨st1, heq1⟩
  have hinv0 : ∃ d, dictGet? ({ s with modulesCsv := l1 ++ r :: l2, censoredCsv :=
      s.censoredCsv ++ [(⟨"site", start, end_, comment⟩ : CensorRow)] } : St).moduleMeta
      (batchOf r.PACT_id, sc.outdoor_directory) = some d ∧
      d.find? (fun m => decide (m.module_id = r.PACT_id)) = some mt0 :=
    ⟨doc, hdoc, hfound⟩
  have hinv1 := censorFold_find?_frame py cfg ⟨start, end_, comment⟩ start end_
    r.PACT_id (batchOf r.PACT_id, sc.outdoor_directory) l1
    ({ s with modulesCsv := l1 ++ r :: l2, censoredCsv :=
      s.censoredCsv ++ [(⟨"site", start, end_, comment⟩ : CensorRow)] }, none)
    hsides.1 hinv0
  rw [heq1] at hinv1
  rcases hinv1 with ⟨d1, hget1, hfind1⟩
  have hget1a : dictGet? st1.moduleMeta (batchOf r.PACT_id, sc.outdoor_directory)
      = some d1 := hget1
  have hstep : censorStep py cfg ⟨start, end_, comment⟩ start end_ (st1, none) r
      = (addCensorToMetadata r.PACT_id ⟨start, end_, comment⟩
          (batchOf r.PACT_id, sc.outdoor_directory) st1, none) := by
    unfold censorStep
    rw [if_pos hsel, hsc]
  have hget2 := addCensorToMetadata_lookup r.PACT_id ⟨start, end_, comment⟩
    (batchOf r.PACT_id, sc.outdoor_directory) st1 hget1a
  have hfind2 : (attachFirst r.PACT_id ⟨start, end_, comment⟩ d1).find?
      (fun m => decide (m.module_id = r.PACT_id))
      = some (if (⟨start, end_, comment⟩ : Censor) ∈ mt0.days_censored then mt0
          else { mt0 with days_censored :=
            mt0.days_censored ++ [⟨start, end_, comment⟩] }) := by
    rw [attachFirst_find?, hfind1, Option.map_some']
  rcases censorFold_none py cfg ⟨start, end_, comment⟩ start end_ l2
      (addCensorToMetadata r.PACT_id ⟨start, end_, comment⟩
        (batchOf r.PACT_id, sc.outdoor_directory) st1)
      (fun r2 h2 => hallmem r2
        (List.mem_append_right _ (List.mem_cons_of_mem r h2))) with ⟨st2, heq2⟩
  have hinv3 := censorFold_find?_frame py cfg ⟨start, end_, comment⟩ start end_
    r.PACT_id (batchOf r.PACT_id, sc.outdoor_directory) l2
    (addCensorToMetadata r.PACT_id ⟨start, end_, comment⟩
      (batchOf r.PACT_id, sc.outdoor_directory) st1, none)
    hsides.2 ⟨attachFirst r.PACT_id ⟨start, end_, comment⟩ d1, hget2, hfind2⟩
  rw [heq2] at hinv3
  rw [heq1, hstep, heq2]
  exact ⟨rfl, hinv3⟩

/-- **C4** (corrected). Exactly-once for a logged exclusion event, in
both scopes, relative to a fully-registered module `r` (roster ids
unique, every site configured, `r`'s document record `mt0` present and
not yet carrying the triple): a module-scoped `exclude` on `r` attaches
the `(start, end, comment)` triple to `r`'s record exactly once
immediately and exactly once after a subsequent full resync; a site-wide
`exclude` does the same for `r` whenever the immediate overlap test
selects `r` — which requires `r`'s `Start_date` cell to be nonempty. (For
a row with an empty `Start_date` the site-wide call attaches nothing
immediately while the resync attaches once, so exactly-once at both
instants fails; see the counterexample.) -/
theorem c4_exclude_exactly_once (py : PyOps) (cfg : Cfg) (s : St)
    (start end_ comment : String) (r : Row) (sc : SiteCfg)
    (doc : List ModuleMeta) (mt0 : ModuleMeta)
    (hndIds : (s.modulesCsv.map (fun r2 => r2.PACT_id)).Nodup)
    (hr : r ∈ s.modulesCsv)
    (hsc : getSiteCfg? cfg (siteOf r) = some sc)
    (hall : ∀ r2 ∈ s.modulesCsv, (getSiteCfg? cfg (siteOf r2)).isSome)
    (hdoc : dictGet? s.moduleMeta (batchOf r.PACT_id, sc.outdoor_directory)
      = some doc)
    (hfound : doc.find? (fun m => decide (m.module_id = r.PACT_id)) = some mt0)
    (hfresh : (⟨start, end_, comment⟩ : Censor) ∉ mt0.days_censored)
    (hsites : ∀ p ∈ batchesOf s.modulesCsv,
      (getSiteCfg? cfg (batchSite p.2)).isSome)
    (hbatchsc : getSiteCfg? cfg (batchSite (s.modulesCsv.filter
        (fun r2 => decide (batchOf r2.PACT_id = batchOf r.PACT_id)))) = some sc) :
    (r.PACT_id ≠ "site" →
      (add_censor py cfg r.PACT_id start end_ comment s).2 = none ∧
      (∃ d1 m1,
        dictGet? (add_censor py cfg r.PACT_id start end_ comment s).1.moduleMeta
            (batchOf r.PACT_id, sc.outdoor_directory) = some d1 ∧
        d1.find? (fun m => decide (m.module_id = r.PACT_id)) = some m1 ∧
        m1.days_censored.count ⟨start, end_, comment⟩ = 1) ∧
      ∃ t2, sync_metadata py cfg
          (add_censor py cfg r.PACT_id start end_ comment s).1 = (t2, none) ∧
        ∃ d2 m2, dictGet? t2.moduleMeta (batchOf r.PACT_id, sc.outdoor_directory)
            = some d2 ∧
          d2.find? (fun m => decide (m.module_id = r.PACT_id)) = some m2 ∧
          m2.days_censored.count ⟨start, end_, comment⟩ = 1) ∧
    (censorSelectsImmediate py r start end_ = true →
      (add_censor py cfg "site" start end_ comment s).2 = none ∧
      (∃ d1 m1,
        dictGet? (add_censor py cfg "site" start end_ comment s).1.moduleMeta
            (batchOf r.PACT_id, sc.outdoor_directory) = some d1 ∧
        d1.find? (fun m => decide (m.module_id = r.PACT_id)) = some m1 ∧
        m1.days_censored.count ⟨start, end_, comment⟩ = 1) ∧
      ∃ t2, sync_metadata py cfg
          (add_censor py cfg "site" start end_ comment s).1 = (t2, none) ∧
        ∃ d2 m2, dictGet? t2.moduleMeta (batchOf r.PACT_id, sc.outdoor_directory)
            = some d2 ∧
          d2.find? (fun m => decide (m.module_id = r.PACT_id)) = some m2 ∧
          m2.days_censored.count ⟨start, end_, comment⟩ = 1) := by
  have hcount1 : ({ mt0 with days_censored :=
      mt0.days_censored ++ [(⟨start, end_, comment⟩ : Censor)] }).days_censored.count
      (⟨start, end_, comment⟩ : Censor) = 1 := by
    show (mt0.days_censored ++ [(⟨start, end_, comment⟩ : Censor)]).count
      (⟨start, end_, comment⟩ : Censor) = 1
    rw [List.count_append, List.count_eq_zero.mpr hfresh]
    simp
  constructor
  · intro hps
    have hfind := find?_row_of_mem_nodup hndIds hr
    have heq := add_censor_nonsite_eq py cfg r.PACT_id start end_ comment s
      hps hfind hsc
    have ht : (add_censor py cfg r.PACT_id start end_ comment s).1
        = addCensorToMetadata r.PACT_id ⟨start, end_, comment⟩
            (batchOf r.PACT_id, sc.outdoor_directory)
            { s with censoredCsv :=
              s.censoredCsv ++ [⟨r.PACT_id, start, end_, comment⟩] } :=
      congrArg Prod.fst heq
    have hdoc1 : dictGet? ({ s with censoredCsv :=
        s.censoredCsv ++ [⟨r.PACT_id, start, end_, comment⟩] } : St).moduleMeta
        (batchOf r.PACT_id, sc.outdoor_directory) = some doc := hdoc
    have hlook := addCensorToMetadata_lookup r.PACT_id ⟨start, end_, comment⟩
      (batchOf r.PACT_id, sc.outdoor_directory) _ hdoc1
    refine ⟨by rw [heq], ?_, ?_⟩
    · refine ⟨attachFirst r.PACT_id ⟨start, end_, comment⟩ doc,
        { mt0 with days_censored :=
          mt0.days_censored ++ [⟨start, end_, comment⟩] }, ?_, ?_, hcount1⟩
      · rw [ht]
        exact hlook
      · rw [attachFirst_find?, hfound, Option.map_some']
        show some (if (⟨start, end_, comment⟩ : Censor) ∈ mt0.days_censored then mt0
          else { mt0 with days_censored :=
            mt0.days_censored ++ [⟨start, end_, comment⟩] }) = _
        rw [if_neg hfresh]
    · have hmods : (add_censor py cfg r.PACT_id start end_ comment s).1.modulesCsv
          = s.modulesCsv := by
        rw [ht, addCensorToMetadata_modulesCsv]
      have hcens : (add_censor py cfg r.PACT_id start end_ comment s).1.censoredCsv
          = s.censoredCsv ++ [⟨r.PACT_id, start, end_, comment⟩] := by
        rw [ht, addCensorToMetadata_censoredCsv]
      rcases syncFold_ok py cfg
          ((add_censor py cfg r.PACT_id start end_ comment s).1.censoredCsv)
          (batchesOf (add_censor py cfg r.PACT_id start end_ comment s).1.modulesCsv)
          (add_censor py cfg r.PACT_id start end_ comment s).1
          (by rw [hmods]; exact hsites) with ⟨t2, hrun⟩
      refine ⟨t2, hrun, ?_⟩
      rcases batchesOf_complete hr with ⟨rs, hb⟩
      have hrs : rs = s.modulesCsv.filter
          (fun r2 => decide (batchOf r2.PACT_id = batchOf r.PACT_id)) :=
        batchesOf_rows_eq_filter hb
      have hbsc : getSiteCfg? cfg (batchSite rs) = some sc := by
        rw [hrs]
        exact hbatchsc
      have hb2 : (batchOf r.PACT_id, rs) ∈ batchesOf
          (add_censor py cfg r.PACT_id start end_ comment s).1.modulesCsv := by
        rw [hmods]
        exact hb
      have hdoc2 := syncFold_doc py cfg
        ((add_censor py cfg r.PACT_id start end_ comment s).1.censoredCsv)
        (batchesOf (add_censor py cfg r.PACT_id start end_ comment s).1.modulesCsv)
        (add_censor py cfg r.PACT_id start end_ comment s).1 t2
        (batchOf r.PACT_id) rs sc (batchesOf_keys_nodup _) hrun hb2 hbsc
      have hrsnd : (rs.map (fun r2 => r2.PACT_id)).Nodup := by
        rw [hrs]
        exact List.Nodup.sublist (List.Sublist.map _ (List.filter_sublist _)) hndIds
      have hrmem2 : r ∈ rs := by
        rw [hrs]
        refine List.mem_filter.mpr ⟨hr, ?_⟩
        simp
      have hpidin : r.PACT_id ∈ rs.map (fun r2 => r2.PACT_id) :=
        List.mem_map.mpr ⟨r, hrmem2, rfl⟩
      have hcontains := syncBatchDoc_contains py
        ((add_censor py cfg r.PACT_id start end_ comment s).1.censoredCsv)
        (indoorsDict ((dictGet?
          (add_censor py cfg r.PACT_id start end_ comment s).1.moduleMeta
          (batchOf r.PACT_id, sc.outdoor_directory)).getD []))
        rs (⟨r.PACT_id, start, end_, comment⟩ : CensorRow)
        (by rw [hcens]
            exact List.mem_append.mpr (Or.inr (List.mem_singleton_self _)))
        hps hpidin hrsnd
      rcases hcontains with ⟨m2, hm2find, hm2mem⟩
      refine ⟨_, m2, hdoc2, hm2find, ?_⟩
      have hm2in := List.mem_of_find?_eq_some hm2find
      have hm2nd := syncBatchDoc_nodup py
        ((add_censor py cfg r.PACT_id start end_ comment s).1.censoredCsv)
        (indoorsDict ((dictGet?
          (add_censor py cfg r.PACT_id start end_ comment s).1.moduleMeta
          (batchOf r.PACT_id, sc.outdoor_directory)).getD []))
        rs m2 hm2in
      exact List.count_eq_one_of_mem hm2nd hm2mem
  · intro hsel
    have himm := add_censor_site_immediate py cfg start end_ comment s
      hndIds hr hsel hsc hall hdoc hfound
    rcases himm with ⟨hnone, d1, hget1, hfind1⟩
    rw [if_neg hfresh] at hfind1
    refine ⟨hnone, ⟨d1, { mt0 with days_censored :=
      mt0.days_censored ++ [⟨start, end_, comment⟩] }, hget1, hfind1, hcount1⟩, ?_⟩
    have hmods : (add_censor py cfg "site" start end_ comment s).1.modulesCsv
        = s.modulesCsv := by
      rw [add_censor_site_eq, censorFold_modulesCsv]
    have hcens : (add_censor py cfg "site" start end_ comment s).1.censoredCsv
        = s.censoredCsv ++ [⟨"site", start, end_, comment⟩] :=
      add_censor_appends_log py cfg "site" start end_ comment s
    rcases syncFold_ok py cfg
        ((add_censor py cfg "site" start end_ comment s).1.censoredCsv)
        (batchesOf (add_censor py cfg "site" start end_ comment s).1.modulesCsv)
        (add_censor py cfg "site" start end_ comment s).1
        (by rw [hmods]; exact hsites) with ⟨t2, hrun⟩
    refine ⟨t2, hrun, ?_⟩
    rcases batchesOf_complete hr with ⟨rs, hb⟩
    have hrs : rs = s.modulesCsv.filter
        (fun r2 => decide (batchOf r2.PACT_id = batchOf r.PACT_id)) :=
      batchesOf_rows_eq_filter hb
    have hbsc : getSiteCfg? cfg (batchSite rs) = some sc := by
      rw [hrs]
      exact hbatchsc
    have hb2 : (batchOf r.PACT_id, rs) ∈ batchesOf
        (add_censor py cfg "site" start end_ comment s).1.modulesCsv := by
      rw [hmods]
      exact hb
    have hdoc2 := syncFold_doc py cfg
      ((add_censor py cfg "site" start end_ comment s).1.censoredCsv)
      (batchesOf (add_censor py cfg "site" start end_ comment s).1.modulesCsv)
      (add_censor py cfg "site" start end_ comment s).1 t2
      (batchOf r.PACT_id) rs sc (batchesOf_keys_nodup _) hrun hb2 hbsc
    have hrsnd : (rs.map (fun r2 => r2.PACT_id)).Nodup := by
      rw [hrs]
      exact List.Nodup.sublist (List.Sublist.map _ (List.filter_sublist _)) hndIds
    have hrmem2 : r ∈ rs := by
      rw [hrs]
      refine List.mem_filter.mpr ⟨hr, ?_⟩
      simp
    have hcontains := syncBatchDoc_contains_site py
      ((add_censor py cfg "site" start end_ comment s).1.censoredCsv)
      (indoorsDict ((dictGet?
        (add_censor py cfg "site" start end_ comment s).1.moduleMeta
        (batchOf r.PACT_id, sc.outdoor_directory)).getD []))
      rs (⟨"site", start, end_, comment⟩ : CensorRow) r.PACT_id
      (by rw [hcens]
          exact List.mem_append.mpr (Or.inr (List.mem_singleton_self _)))
      rfl hrmem2 rfl hrsnd (censorSelectsSync_of_immediate hsel)
    rcases hcontains with ⟨m2, hm2find, hm2mem⟩
    refine ⟨_, m2, hdoc2, hm2find, ?_⟩
    have hm2in := List.mem_of_find?_eq_some hm2find
    have hm2nd := syncBatchDoc_nodup py
      ((add_censor py cfg "site" start end_ comment s).1.censoredCsv)
      (indoorsDict ((dictGet?
        (add_censor py cfg "site" start end_ comment s).1.moduleMeta
        (batchOf r.PACT_id, sc.outdoor_directory)).getD []))
      rs m2 hm2in
    exact List.count_eq_one_of_mem hm2nd hm2mem

/-- C4 witness: on the concrete registered state, both a module-scoped
and a site-wide exclude are accepted; the theorem's hypotheses (and both
scope conditions) all hold there. -/
theorem c4_exclude_exactly_once_witness :
    (add_censor evalPy cfgW "P-0001-01" "2023-02-01" "2023-02-03" "rain" sC4).2
      = none ∧
    (add_censor evalPy cfgW "site" "2023-02-01" "2023-02-03" "rain" sC4).2
      = none := by
  have h := c4_exclude_exactly_once evalPy cfgW sC4 "2023-02-01" "2023-02-03"
    "rain" rowW scW [mmW] mmW (by decide) (by decide) rfl (by decide) rfl rfl
    (by decide) (by decide) rfl
  exact ⟨(h.1 (by decide)).1, (h.2 (by decide)).1⟩

/-- C4 counterexample to the unconditional claim: a site-wide exclude
over a roster row whose `Start_date` cell is empty. The module is
affected — after a resync its exclusion list carries the triple once —
but immediately after the call it carries it zero times: the immediate
site-wide loop skips empty-`Start_date` rows while the synchronizer
treats them as active since forever. -/
theorem c4_counterexample :
    rowE.Start_date = "" ∧
    (add_censor evalPy cfgW "site" "2023-02-01" "2023-02-03" "rain" sE).2
      = none ∧
    ((dictGet? (add_censor evalPy cfgW "site" "2023-02-01" "2023-02-03" "rain"
        sE).1.moduleMeta ("P-0002", "Outdoor_SNL")).getD []).map
        (fun m => m.days_censored.count ⟨"2023-02-01", "2023-02-03", "rain"⟩)
      = [0] ∧
    (sync_metadata evalPy cfgW (add_censor evalPy cfgW "site" "2023-02-01"
        "2023-02-03" "rain" sE).1).2 = none ∧
    ((dictGet? (sync_metadata evalPy cfgW (add_censor evalPy cfgW "site"
        "2023-02-01" "2023-02-03" "rain" sE).1).1.moduleMeta
        ("P-0002", "Outdoor_SNL")).getD []).map
        (fun m => (m.module_id, m.days_censored.count
          ⟨"2023-02-01", "2023-02-03", "rain"⟩))
      = [("P-0002-01", 1)] := by
  refine ⟨rfl, rfl, rfl, rfl, rfl⟩

end PactSnl
